import Mathlib

/-!
# The HSI colour space (`src/colorspace/hsi.h`)

A shallow embedding of the class `cs::HSI` and a verification of its conversion
routine and of its two distance functions.

Conventions of the embedding:

* `unsigned int` arguments are natural numbers;
* in the first model `double` and `float` values are idealised as real numbers:
  `M_PI` is `Real.pi`, and `sqrt`, `acos`, `cos`, `fabs`, `pow(x,2)` are `Real.sqrt`,
  `Real.arccos`, `Real.cos`, `|x|`, `x ^ 2`.  Rounding is not modelled there; a
  result about it is a statement about the exact real value of the C++ expression;
* the second model (names ending in `_double`) keeps the rounding of every
  operation and takes the math library as a parameter; it is used where the
  rounding decides what the code returns;
* a call that can throw returns `Except Error _`;
* where the lifetime of objects matters (`new`, `delete`), objects live in a `Heap`
  of cells and a pointer is the address of a cell.
-/

namespace cs

open Real

/-- Error conditions a call can end with. -/
inductive Error where
  | InvalidInput
  deriving DecidableEq, Repr

/-- The data members that `hsi.h` reads and writes.  They are declared in the base
class `ColorspaceInterface` (`colorspaceinterface.h`); the class `HSI` adds none. -/
structure ColorspaceInterface where
  name : String
  r : Nat
  g : Nat
  b : Nat
  c1 : ℝ
  c2 : ℝ
  c3 : ℝ
  c1Min : ℝ
  c2Min : ℝ
  c3Min : ℝ
  c1Max : ℝ
  c2Max : ℝ
  c3Max : ℝ

/-- An `HSI` object has exactly the members of its base class, so the cast
`(HSI*)other` of `distance` is the identity on the state. -/
abbrev HSI := ColorspaceInterface

/-- Modelled from the spec: `ColorspaceInterface::getName` (declared in
`colorspaceinterface.h`), the model's identifier string. -/
def ColorspaceInterface.getName (self : ColorspaceInterface) : String :=
  self.name

/-- Modelled from the spec: `ColorspaceInterface::getRGB` (declared in
`colorspaceinterface.h`), which returns the stored original RGB triple. -/
def ColorspaceInterface.getRGB (self : ColorspaceInterface) : Nat × Nat × Nat :=
  (self.r, self.g, self.b)

/-- Modelled from the spec: `checkRGB` (declared in `colorspaceinterface.h`), the
RGB validity check: it fails with `InvalidInput` when a channel is outside
`[0,255]` and does nothing otherwise. -/
def checkRGB (red green blue : Nat) : Except Error Unit :=
  if red ≤ 255 ∧ green ≤ 255 ∧ blue ≤ 255 then .ok () else .error .InvalidInput

/-- `HSI::convertFromRGB` (hsi.h, lines 52-87). -/
noncomputable def HSI.convertFromRGB (self : HSI) (red green blue : Nat) :
    Except Error HSI :=
  match checkRGB red green blue with
  | .error e => .error e
  | .ok () =>
    let grayLevel : Bool := (red == green) && (green == blue)
    -- convert from rgb to HSI colour space
    let c1 : ℝ :=
      if !grayLevel then
        let r_g : ℝ := (red : ℝ) - (green : ℝ)
        let r_b : ℝ := (red : ℝ) - (blue : ℝ)
        let g_b : ℝ := (green : ℝ) - (blue : ℝ)
        let n1 : ℝ := 0.5 * (r_g + r_b)
        let n2 : ℝ := Real.sqrt (r_g ^ 2 + r_b * g_b)
        let c1 : ℝ := Real.arccos (n1 / n2)
        if blue > green then 2 * π - c1 else c1
      else π
    let sum_rgb : ℝ := (red : ℝ) + (green : ℝ) + (blue : ℝ)
    let c2 : ℝ :=
      if !grayLevel then
        let min_rgb : ℝ := ((min red (min green blue) : Nat) : ℝ)
        let c2 : ℝ := (3 * min_rgb) / sum_rgb
        1 - c2
      else 0
    let c3 : ℝ := sum_rgb / 3
    .ok { self with r := red, g := green, b := blue, c1 := c1, c2 := c2, c3 := c3 }

/-- The members of an object before the body of the `HSI` constructor runs.  The
constructor and `convertFromRGB` assign every one of them before it is read. -/
def ColorspaceInterface.blank : ColorspaceInterface :=
  { name := "", r := 0, g := 0, b := 0, c1 := 0, c2 := 0, c3 := 0,
    c1Min := 0, c2Min := 0, c3Min := 0, c1Max := 0, c2Max := 0, c3Max := 0 }

/-- The assignments that open the `HSI` constructor (hsi.h, lines 34-40): the model
name and the six declared range bounds. -/
noncomputable def HSI.declare (self : HSI) : HSI :=
  { self with
    name := "hsi", c1Min := 0, c2Min := 0, c3Min := 0,
    c1Max := 2 * π, c2Max := 1, c3Max := 255 }

/-- The constructor `HSI::HSI(red, green, blue)` (hsi.h, lines 33-44): the
declarations, then `convertFromRGB(red, green, blue)`. -/
noncomputable def HSI.ctor (red green blue : Nat) : Except Error HSI :=
  HSI.convertFromRGB (HSI.declare ColorspaceInterface.blank) red green blue

/-- The conversion of `other` to an `HSI` value that opens both `distance` and
`normalizedDistance` (hsi.h, lines 103-113 and 134-144): a value of another model
is converted through its RGB triple into a fresh `HSI()`. -/
noncomputable def HSI.toHSI (self : HSI) (other : ColorspaceInterface) :
    Except Error HSI :=
  if other.getName != self.name then
    -- convert to right colour space
    let (red, green, blue) := other.getRGB
    match HSI.ctor 255 255 255 with
    | .error e => .error e
    | .ok o => HSI.convertFromRGB o red green blue
  else .ok other

/-- `HSI::distance` (hsi.h, lines 102-122). -/
noncomputable def HSI.distance (self : HSI) (other : ColorspaceInterface) :
    Except Error ℝ :=
  match HSI.toHSI self other with
  | .error e => .error e
  | .ok o =>
    let theta : ℝ := |self.c1 - o.c1|
    let theta : ℝ := if theta > π then 2 * π - theta else theta
    let d : ℝ :=
      Real.sqrt ((self.c3 - o.c3) ^ 2 + self.c2 ^ 2 + o.c2 ^ 2
        - 2 * self.c2 * o.c2 * Real.cos theta)
    .ok d

/-- `HSI::normalizedDistance` (hsi.h, lines 132-164). -/
noncomputable def HSI.normalizedDistance (self : HSI) (other : ColorspaceInterface) :
    Except Error ℝ :=
  match HSI.toHSI self other with
  | .error e => .error e
  | .ok o =>
    let theta : ℝ := |self.c1 - o.c1|
    let theta : ℝ := if theta > π then 2 * π - theta else theta
    let d1 : ℝ := (self.c3 - o.c3) ^ 2
    let d2 : ℝ := self.c2 ^ 2 + o.c2 ^ 2 - 2 * self.c2 * o.c2 * Real.cos theta
    -- normalize d1 and d2
    let w1 : ℝ := (255 : ℝ) ^ 2
    let w2 : ℝ := 4
    let d1 : ℝ := d1 / w1
    let d2 : ℝ := d2 / w2
    -- compute weighted sum of d1 and d2
    let tw : ℝ := w1 + w2
    let w1 : ℝ := w1 / tw
    let w2 : ℝ := w2 / tw
    let d : ℝ := d1 * w1 + d2 * w2
    .ok d

/-- The hue difference with wraparound that both `distance` and
`normalizedDistance` compute from the two hues (hsi.h, lines 115-118 and
146-149). -/
noncomputable def HSI.theta (c1 o_c1 : ℝ) : ℝ :=
  let theta : ℝ := |c1 - o_c1|
  if theta > π then 2 * π - theta else theta

/-- `HSI::convertFromRGB` (hsi.h, lines 52-87) statement by statement, as a
transformer of the members of the receiver: the members after the call, together
with the outcome.  An exception ends the call at once and leaves the members as the
statements before it have written them. -/
noncomputable def HSI.convertFromRGB_members (self : HSI) (red green blue : Nat) :
    HSI × Except Error Unit :=
  match checkRGB red green blue with
  | .error e => (self, .error e)
  | .ok () =>
    let grayLevel : Bool := (red == green) && (green == blue)
    -- store rgb colour
    let s : HSI := { self with r := red }
    let s : HSI := { s with g := green }
    let s : HSI := { s with b := blue }
    -- convert from rgb to HSI colour space
    let s : HSI := { s with c1 := π }
    let s : HSI :=
      if !grayLevel then
        let r_g : ℝ := (red : ℝ) - (green : ℝ)
        let r_b : ℝ := (red : ℝ) - (blue : ℝ)
        let g_b : ℝ := (green : ℝ) - (blue : ℝ)
        let n1 : ℝ := 0.5 * (r_g + r_b)
        let n2 : ℝ := Real.sqrt (r_g ^ 2 + r_b * g_b)
        let s : HSI := { s with c1 := Real.arccos (n1 / n2) }
        if blue > green then { s with c1 := 2 * π - s.c1 } else s
      else s
    let sum_rgb : ℝ := (red : ℝ) + (green : ℝ) + (blue : ℝ)
    let s : HSI := { s with c2 := 0 }
    let s : HSI :=
      if !grayLevel then
        let min_rgb : ℝ := ((min red (min green blue) : Nat) : ℝ)
        let s : HSI := { s with c2 := (3 * min_rgb) / sum_rgb }
        { s with c2 := 1 - s.c2 }
      else s
    let s : HSI := { s with c3 := sum_rgb }
    let s : HSI := { s with c3 := s.c3 / 3 }
    (s, .ok ())

/-! ### Object lifetime

`distance` and `normalizedDistance` receive `other` as a pointer, may allocate a
temporary with `new`, and end with `delete o`.  To speak about which object that
`delete` destroys, the objects live in a store of cells indexed by address. -/

/-- The store of objects: the cell at an address holds the object that lives there,
or nothing once the object has been destroyed. -/
structure Heap where
  cells : List (Option ColorspaceInterface)

/-- The object a pointer refers to, if it is alive. -/
def Heap.deref (heap : Heap) (p : Nat) : Option ColorspaceInterface :=
  match heap.cells[p]? with
  | some (some v) => some v
  | _ => none

/-- The expression `new T(...)`: the object is placed in a fresh cell, whose address
is returned. -/
def Heap.new (heap : Heap) (v : ColorspaceInterface) : Nat × Heap :=
  (heap.cells.length, { cells := heap.cells ++ [some v] })

/-- An assignment to the members of the object at `p`. -/
def Heap.store (heap : Heap) (p : Nat) (v : ColorspaceInterface) : Heap :=
  { cells := heap.cells.set p (some v) }

/-- The statement `delete p`: the object at `p` is destroyed. -/
def Heap.delete (heap : Heap) (p : Nat) : Heap :=
  { cells := heap.cells.set p none }

/-- Lines 103-113 (and 134-144) on the store: the pointer `o` that the rest of the
function uses, the object it points to, and the store after a possible `new`.  The
result is `none` when `other` does not point to a live object (undefined
behaviour). -/
noncomputable def HSI.toHSI_heap (self : HSI) (heap : Heap) (other : Nat) :
    Option (Except Error (Nat × HSI) × Heap) :=
  match heap.deref other with
  | none => none
  | some otherObj =>
    if otherObj.getName != self.name then
      -- convert to right colour space
      let (red, green, blue) := otherObj.getRGB
      match HSI.ctor 255 255 255 with
      | .error e => some (.error e, heap)
      | .ok fresh =>
        let (o, heap) := heap.new fresh
        match HSI.convertFromRGB fresh red green blue with
        | .error e => some (.error e, heap)
        | .ok converted => some (.ok (o, converted), heap.store o converted)
    else some (.ok (other, otherObj), heap)

/-- `HSI::distance` (hsi.h, lines 102-122) on the store: the returned number and the
store after the call, `delete o` of line 120 included. -/
noncomputable def HSI.distance_heap (self : HSI) (heap : Heap) (other : Nat) :
    Option (Except Error ℝ × Heap) :=
  match HSI.toHSI_heap self heap other with
  | none => none
  | some (.error e, heap) => some (.error e, heap)
  | some (.ok (o, oObj), heap) =>
    let theta : ℝ := |self.c1 - oObj.c1|
    let theta : ℝ := if theta > π then 2 * π - theta else theta
    let d : ℝ :=
      Real.sqrt ((self.c3 - oObj.c3) ^ 2 + self.c2 ^ 2 + oObj.c2 ^ 2
        - 2 * self.c2 * oObj.c2 * Real.cos theta)
    let heap := heap.delete o
    some (.ok d, heap)

/-- `HSI::normalizedDistance` (hsi.h, lines 132-164) on the store: the returned
number and the store after the call, `delete o` of line 152 included. -/
noncomputable def HSI.normalizedDistance_heap (self : HSI) (heap : Heap) (other : Nat) :
    Option (Except Error ℝ × Heap) :=
  match HSI.toHSI_heap self heap other with
  | none => none
  | some (.error e, heap) => some (.error e, heap)
  | some (.ok (o, oObj), heap) =>
    let theta : ℝ := |self.c1 - oObj.c1|
    let theta : ℝ := if theta > π then 2 * π - theta else theta
    let d1 : ℝ := (self.c3 - oObj.c3) ^ 2
    let d2 : ℝ := self.c2 ^ 2 + oObj.c2 ^ 2 - 2 * self.c2 * oObj.c2 * Real.cos theta
    let heap := heap.delete o
    -- normalize d1 and d2
    let w1 : ℝ := (255 : ℝ) ^ 2
    let w2 : ℝ := 4
    let d1 : ℝ := d1 / w1
    let d2 : ℝ := d2 / w2
    -- compute weighted sum of d1 and d2
    let tw : ℝ := w1 + w2
    let w1 : ℝ := w1 / tw
    let w2 : ℝ := w2 / tw
    let d : ℝ := d1 * w1 + d2 * w2
    some (.ok d, heap)

/-! ### Double-precision arithmetic

The definitions above take the arithmetic of the code as exact.  The definitions
below keep its rounding: a `double` is a finite binary64 number or a value that is
not a finite number, every operation returns the number nearest to its exact result
(IEEE 754 roundTiesToEven, each operation rounded once to its own type, no fused
multiply-add), and the functions `pow`, `acos` and `cos` of the C math library,
whose rounding IEEE 754 does not fix, are a parameter.  Overflow and subnormal
numbers are not modelled: the values of this program stay far inside the normal
range. -/

/-- The integer nearest to `m`, ties to even. -/
noncomputable def roundHalfEven (m : ℝ) : ℤ :=
  if m - ⌊m⌋ < 1 / 2 then ⌊m⌋
  else if 1 / 2 < m - ⌊m⌋ then ⌊m⌋ + 1
  else if Even ⌊m⌋ then ⌊m⌋ else ⌊m⌋ + 1

/-- The binary floating-point number with `p` significant bits nearest to `x`, ties
to even: `p` is 53 for `double` and 24 for `float`. -/
noncomputable def roundTo (p : ℕ) (x : ℝ) : ℝ :=
  if x = 0 then 0
  else
    let e : ℤ := Int.log 2 |x| - ((p : ℤ) - 1)
    (roundHalfEven (x / (2 : ℝ) ^ e) : ℝ) * (2 : ℝ) ^ e

/-- A value of type `double`: `some x` is the finite number `x`, `none` is a value
that is not a finite number (NaN; the code produces one only from the square root
of a negative number, `acos` outside `[-1,1]` or a division by zero). -/
abbrev Double := Option ℝ

/-- A value of type `float`, read like `Double`. -/
abbrev Float32 := Option ℝ

/-- The conversion `double(n)` of an `unsigned int`. -/
noncomputable def Double.ofNat (n : Nat) : Double :=
  some (roundTo 53 (n : ℝ))

/-- The sum `x + y` of two doubles. -/
noncomputable def Double.add (x y : Double) : Double :=
  match x, y with
  | some a, some b => some (roundTo 53 (a + b))
  | _, _ => none

/-- The difference `x - y` of two doubles. -/
noncomputable def Double.sub (x y : Double) : Double :=
  match x, y with
  | some a, some b => some (roundTo 53 (a - b))
  | _, _ => none

/-- The product `x * y` of two doubles. -/
noncomputable def Double.mul (x y : Double) : Double :=
  match x, y with
  | some a, some b => some (roundTo 53 (a * b))
  | _, _ => none

/-- The quotient `x / y` of two doubles. -/
noncomputable def Double.div (x y : Double) : Double :=
  match x, y with
  | some a, some b => if b = 0 then none else some (roundTo 53 (a / b))
  | _, _ => none

/-- The function `sqrt`, which IEEE 754 rounds correctly; the square root of a
negative number is NaN. -/
noncomputable def Double.sqrt (x : Double) : Double :=
  match x with
  | some a => if a < 0 then none else some (roundTo 53 (Real.sqrt a))
  | none => none

/-- The function `fabs`. -/
noncomputable def Double.abs (x : Double) : Double :=
  match x with
  | some a => some |a|
  | none => none

/-- The comparison `x > y`, false when an operand is NaN. -/
noncomputable def Double.gt (x y : Double) : Bool :=
  match x, y with
  | some a, some b => decide (a > b)
  | _, _ => false

/-- The conversion of a `double` to `float`. -/
noncomputable def Float32.ofDouble (x : Double) : Float32 :=
  match x with
  | some a => some (roundTo 24 a)
  | none => none

/-- The conversion of a `float` to `double`, which is exact. -/
def Double.ofFloat32 (x : Float32) : Double := x

/-- The sum `x + y` of two floats. -/
noncomputable def Float32.add (x y : Float32) : Float32 :=
  match x, y with
  | some a, some b => some (roundTo 24 (a + b))
  | _, _ => none

/-- The quotient `x / y` of two floats. -/
noncomputable def Float32.div (x y : Float32) : Float32 :=
  match x, y with
  | some a, some b => if b = 0 then none else some (roundTo 24 (a / b))
  | _, _ => none

/-- The constant `M_PI`: the double nearest to π. -/
noncomputable def M_PI : Double := some (roundTo 53 π)

/-- The functions of the C math library that `hsi.h` calls and whose rounding
IEEE 754 does not fix. -/
structure Libm where
  pow : Double → Double → Double
  acos : Double → Double
  cos : Double → Double

/-- A math library that returns the double nearest to the exact result. -/
noncomputable def Libm.correctlyRounded : Libm where
  pow x y :=
    match x, y with
    | some a, some b => some (roundTo 53 (a ^ b))
    | _, _ => none
  acos x :=
    match x with
    | some a => if -1 ≤ a ∧ a ≤ 1 then some (roundTo 53 (Real.arccos a)) else none
    | none => none
  cos x :=
    match x with
    | some a => some (roundTo 53 (Real.cos a))
    | none => none

/-- The saturation of RGB (14,14,205) as a double, `0x1.a3b5499d1daa5p-1`. -/
noncomputable def saturation_14_14_205 : ℝ := 7383583938435749 / 2 ^ 53

/-- A math library like `Libm.correctlyRounded`, except that `pow` returns for the
square of `saturation_14_14_205` the double just below the nearest one,
`0x1.580d77acbe393p-1`, as the `pow` of the GNU C library does. -/
noncomputable def Libm.observed : Libm where
  pow x y :=
    if x = some saturation_14_14_205 ∧ y = some 2 then some (6052637477430163 / 2 ^ 53)
    else Libm.correctlyRounded.pow x y
  acos := Libm.correctlyRounded.acos
  cos := Libm.correctlyRounded.cos

/-- The data members of `ColorspaceInterface` with their C++ types: the channels
and the range bounds are doubles. -/
structure ColorspaceInterfaceDouble where
  name : String
  r : Nat
  g : Nat
  b : Nat
  c1 : Double
  c2 : Double
  c3 : Double
  c1Min : Double
  c2Min : Double
  c3Min : Double
  c1Max : Double
  c2Max : Double
  c3Max : Double

/-- An `HSI` object in double precision. -/
abbrev HSIDouble := ColorspaceInterfaceDouble

/-- Modelled from the spec: `ColorspaceInterface::getName`, as above. -/
def ColorspaceInterfaceDouble.getName (self : ColorspaceInterfaceDouble) : String :=
  self.name

/-- Modelled from the spec: `ColorspaceInterface::getRGB`, as above. -/
def ColorspaceInterfaceDouble.getRGB (self : ColorspaceInterfaceDouble) :
    Nat × Nat × Nat :=
  (self.r, self.g, self.b)

/-- `HSI::convertFromRGB` (hsi.h, lines 52-87) in double precision. -/
noncomputable def HSI.convertFromRGB_double (L : Libm) (self : HSIDouble)
    (red green blue : Nat) : Except Error HSIDouble :=
  match checkRGB red green blue with
  | .error e => .error e
  | .ok () =>
    let grayLevel : Bool := (red == green) && (green == blue)
    -- convert from rgb to HSI colour space
    let c1 : Double :=
      if !grayLevel then
        let r_g : Double := Double.sub (Double.ofNat red) (Double.ofNat green)
        let r_b : Double := Double.sub (Double.ofNat red) (Double.ofNat blue)
        let g_b : Double := Double.sub (Double.ofNat green) (Double.ofNat blue)
        let n1 : Double := Double.mul (some 0.5) (Double.add r_g r_b)
        let n2 : Double :=
          Double.sqrt (Double.add (L.pow r_g (some 2)) (Double.mul r_b g_b))
        let c1 : Double := L.acos (Double.div n1 n2)
        if blue > green then Double.sub (Double.mul (some 2) M_PI) c1 else c1
      else M_PI
    let sum_rgb : Double :=
      Double.add (Double.add (Double.ofNat red) (Double.ofNat green)) (Double.ofNat blue)
    let c2 : Double :=
      if !grayLevel then
        let min_rgb : Double := Double.ofNat (min red (min green blue))
        let c2 : Double := Double.div (Double.mul (some 3) min_rgb) sum_rgb
        Double.sub (some 1) c2
      else some 0
    let c3 : Double := Double.div sum_rgb (some 3)
    .ok { self with r := red, g := green, b := blue, c1 := c1, c2 := c2, c3 := c3 }

/-- The members of an object in double precision before the body of the `HSI`
constructor runs. -/
def ColorspaceInterfaceDouble.blank : ColorspaceInterfaceDouble :=
  { name := "", r := 0, g := 0, b := 0, c1 := some 0, c2 := some 0, c3 := some 0,
    c1Min := some 0, c2Min := some 0, c3Min := some 0,
    c1Max := some 0, c2Max := some 0, c3Max := some 0 }

/-- The assignments that open the `HSI` constructor (hsi.h, lines 34-40) in double
precision. -/
noncomputable def HSI.declare_double (self : HSIDouble) : HSIDouble :=
  { self with
    name := "hsi", c1Min := some 0, c2Min := some 0, c3Min := some 0,
    c1Max := Double.mul (some 2) M_PI, c2Max := some 1, c3Max := some 255 }

/-- The constructor `HSI::HSI(red, green, blue)` (hsi.h, lines 33-44) in double
precision. -/
noncomputable def HSI.ctor_double (L : Libm) (red green blue : Nat) :
    Except Error HSIDouble :=
  HSI.convertFromRGB_double L (HSI.declare_double ColorspaceInterfaceDouble.blank)
    red green blue

/-- Lines 103-113 and 134-144 in double precision: the `HSI` value that the rest of
the function uses. -/
noncomputable def HSI.toHSI_double (L : Libm) (self : HSIDouble)
    (other : ColorspaceInterfaceDouble) : Except Error HSIDouble :=
  if other.getName != self.name then
    -- convert to right colour space
    let (red, green, blue) := other.getRGB
    match HSI.ctor_double L 255 255 255 with
    | .error e => .error e
    | .ok o => HSI.convertFromRGB_double L o red green blue
  else .ok other

/-- `HSI::distance` (hsi.h, lines 102-122) in double precision. -/
noncomputable def HSI.distance_double (L : Libm) (self : HSIDouble)
    (other : ColorspaceInterfaceDouble) : Except Error Double :=
  match HSI.toHSI_double L self other with
  | .error e => .error e
  | .ok o =>
    let theta : Double := Double.abs (Double.sub self.c1 o.c1)
    let theta : Double :=
      if Double.gt theta M_PI then Double.sub (Double.mul (some 2) M_PI) theta else theta
    let d : Double :=
      Double.sqrt
        (Double.sub
          (Double.add
            (Double.add (L.pow (Double.sub self.c3 o.c3) (some 2)) (L.pow self.c2 (some 2)))
            (L.pow o.c2 (some 2)))
          (Double.mul (Double.mul (Double.mul (some 2) self.c2) o.c2) (L.cos theta)))
    .ok d

/-- `HSI::normalizedDistance` (hsi.h, lines 132-164) in double precision; the
weights `w1`, `w2`, `tw` are floats. -/
noncomputable def HSI.normalizedDistance_double (L : Libm) (self : HSIDouble)
    (other : ColorspaceInterfaceDouble) : Except Error Double :=
  match HSI.toHSI_double L self other with
  | .error e => .error e
  | .ok o =>
    let theta : Double := Double.abs (Double.sub self.c1 o.c1)
    let theta : Double :=
      if Double.gt theta M_PI then Double.sub (Double.mul (some 2) M_PI) theta else theta
    let d1 : Double := L.pow (Double.sub self.c3 o.c3) (some 2)
    let d2 : Double :=
      Double.sub (Double.add (L.pow self.c2 (some 2)) (L.pow o.c2 (some 2)))
        (Double.mul (Double.mul (Double.mul (some 2) self.c2) o.c2) (L.cos theta))
    -- normalize d1 and d2
    let w1 : Float32 := Float32.ofDouble (L.pow (some 255) (some 2))
    let w2 : Float32 := Float32.ofDouble (some 4)
    let d1 : Double := Double.div d1 (Double.ofFloat32 w1)
    let d2 : Double := Double.div d2 (Double.ofFloat32 w2)
    -- compute weighted sum of d1 and d2
    let tw : Float32 := Float32.add w1 w2
    let w1 : Float32 := Float32.div w1 tw
    let w2 : Float32 := Float32.div w2 tw
    let d : Double :=
      Double.add (Double.mul d1 (Double.ofFloat32 w1)) (Double.mul d2 (Double.ofFloat32 w2))
    .ok d

/-! ## Basic facts about the conversion -/

theorem checkRGB_ok {red green blue : Nat} (hr : red ≤ 255) (hg : green ≤ 255)
    (hb : blue ≤ 255) : checkRGB red green blue = .ok () := by
  simp [checkRGB, hr, hg, hb]

/-- On a gray level the conversion succeeds with hue `π`, saturation `0` and
intensity the common channel value. -/
theorem convertFromRGB_gray (self : HSI) (v : Nat) (hv : v ≤ 255) :
    HSI.convertFromRGB self v v v
      = .ok { self with r := v, g := v, b := v, c1 := π, c2 := 0, c3 := (v : ℝ) } := by
  have h3 : ((v : ℝ) + v + v) / 3 = v := by ring
  simp [HSI.convertFromRGB, checkRGB_ok hv hv hv, h3]

/-- C1: for every r in [0,255], `convertFromRGB(r, r, r)` succeeds and sets the hue
c1 to exactly π and the saturation c2 to exactly 0 (and the intensity to r, so
white (255,255,255) gives hue π, saturation 0, intensity 255). -/
theorem C1_gray_hue_pi_saturation_zero (self : HSI) (v : Nat) (hv : v ≤ 255) :
    ∃ x, HSI.convertFromRGB self v v v = .ok x ∧ x.c1 = π ∧ x.c2 = 0 ∧ x.c3 = v :=
  ⟨_, convertFromRGB_gray self v hv, rfl, rfl, rfl⟩

/-- Witness of C1 at white: RGB (255,255,255) gives hue π, saturation 0 and
intensity 255. -/
theorem C1_gray_hue_pi_saturation_zero_witness :
    (255 : Nat) ≤ 255 ∧
    ∃ x, HSI.convertFromRGB ColorspaceInterface.blank 255 255 255 = .ok x
      ∧ x.c1 = π ∧ x.c2 = 0 ∧ x.c3 = (255 : Nat) :=
  ⟨by decide, C1_gray_hue_pi_saturation_zero ColorspaceInterface.blank 255 (by decide)⟩

/-- For valid channels the conversion succeeds, and its result is the receiver with
its RGB triple and its three channels replaced as lines 54-86 compute them. -/
theorem convertFromRGB_eq (self : HSI) (red green blue : Nat) (hr : red ≤ 255)
    (hg : green ≤ 255) (hb : blue ≤ 255) :
    HSI.convertFromRGB self red green blue
      = .ok { self with
          r := red, g := green, b := blue,
          c1 :=
            if red = green ∧ green = blue then π
            else if green < blue then
              2 * π - Real.arccos (0.5 * (((red : ℝ) - green) + ((red : ℝ) - blue))
                / Real.sqrt (((red : ℝ) - green) ^ 2
                    + ((red : ℝ) - blue) * ((green : ℝ) - blue)))
            else
              Real.arccos (0.5 * (((red : ℝ) - green) + ((red : ℝ) - blue))
                / Real.sqrt (((red : ℝ) - green) ^ 2
                    + ((red : ℝ) - blue) * ((green : ℝ) - blue))),
          c2 :=
            if red = green ∧ green = blue then 0
            else 1 - (3 * ((min red (min green blue) : Nat) : ℝ))
                  / ((red : ℝ) + green + blue),
          c3 := ((red : ℝ) + green + blue) / 3 } := by
  by_cases hgray : red = green ∧ green = blue
  · obtain ⟨h1, h2⟩ := hgray
    subst h1; subst h2
    simp [HSI.convertFromRGB, checkRGB_ok hr hr hr]
  · have hgray2 : red = green → ¬ green = blue := fun h1 h2 => hgray ⟨h1, h2⟩
    simp [HSI.convertFromRGB, checkRGB_ok hr hg hb, hgray, hgray2]

/-! ## Arithmetic of the hue formula -/

/-- The radicand of `n2` is positive unless the three channels are equal. -/
theorem radicand_pos (x y z : ℝ) (h : ¬ (x = y ∧ y = z)) :
    0 < (x - y) ^ 2 + (x - z) * (y - z) := by
  have key : (x - y) ^ 2 + (x - z) * (y - z)
      = ((x - y) ^ 2 + (x - z) ^ 2 + (y - z) ^ 2) / 2 := by ring
  rw [key]
  by_contra hneg
  have h1 := sq_nonneg (x - y)
  have h2 := sq_nonneg (x - z)
  have h3 := sq_nonneg (y - z)
  have hxy : (x - y) ^ 2 = 0 := by linarith
  have hyz : (y - z) ^ 2 = 0 := by linarith
  have e1 : x = y := by
    have := pow_eq_zero_iff (two_ne_zero) |>.mp hxy
    linarith
  have e2 : y = z := by
    have := pow_eq_zero_iff (two_ne_zero) |>.mp hyz
    linarith
  exact h ⟨e1, e2⟩

/-- The square of `n1` and the radicand of `n2` differ by `3/4 (g - b)^2`. -/
theorem radicand_sub_n1_sq (x y z : ℝ) :
    (x - y) ^ 2 + (x - z) * (y - z) - (0.5 * ((x - y) + (x - z))) ^ 2
      = 3 / 4 * (y - z) ^ 2 := by
  ring

/-- When green and blue differ, the quotient `n1 / n2` is strictly below 1. -/
theorem n1_div_n2_lt_one (x y z : ℝ) (hyz : y ≠ z) :
    0.5 * ((x - y) + (x - z)) / Real.sqrt ((x - y) ^ 2 + (x - z) * (y - z)) < 1 := by
  have hpos : 0 < (x - y) ^ 2 + (x - z) * (y - z) :=
    radicand_pos x y z (fun h => hyz h.2)
  have hs : 0 < Real.sqrt ((x - y) ^ 2 + (x - z) * (y - z)) := Real.sqrt_pos.mpr hpos
  rw [div_lt_one hs]
  apply Real.lt_sqrt_of_sq_lt
  have h3 := radicand_sub_n1_sq x y z
  have h4 : 0 < (y - z) ^ 2 := by
    have : y - z ≠ 0 := sub_ne_zero.mpr hyz
    positivity
  linarith

/-- C2: for every RGB triple in [0,255]^3 that is not gray, `convertFromRGB`
succeeds and the hue c1 satisfies 0 ≤ c1 < 2π; when blue > green the hue is the
reflected value 2π - acos(n1/n2), and that value is not 2π. -/
theorem C2_hue_in_range (self : HSI) (red green blue : Nat) (hr : red ≤ 255)
    (hg : green ≤ 255) (hb : blue ≤ 255) (hgray : ¬ (red = green ∧ green = blue)) :
    ∃ x, HSI.convertFromRGB self red green blue = .ok x ∧ 0 ≤ x.c1 ∧ x.c1 < 2 * π ∧
      (blue > green →
        x.c1 = 2 * π - Real.arccos (0.5 * (((red : ℝ) - green) + ((red : ℝ) - blue))
                / Real.sqrt (((red : ℝ) - green) ^ 2
                    + ((red : ℝ) - blue) * ((green : ℝ) - blue)))
        ∧ x.c1 ≠ 2 * π) := by
  refine ⟨_, convertFromRGB_eq self red green blue hr hg hb, ?_⟩
  simp only [if_neg hgray]
  have hpi := Real.pi_pos
  by_cases hbg : green < blue
  · have hne : (green : ℝ) ≠ blue := by
      have : (green : ℝ) < blue := by exact_mod_cast hbg
      exact ne_of_lt this
    have hlt := n1_div_n2_lt_one (red : ℝ) green blue hne
    have hpos := Real.arccos_pos.mpr hlt
    have hle := Real.arccos_le_pi (0.5 * (((red : ℝ) - green) + ((red : ℝ) - blue))
                / Real.sqrt (((red : ℝ) - green) ^ 2
                    + ((red : ℝ) - blue) * ((green : ℝ) - blue)))
    simp only [if_pos hbg]
    refine ⟨by linarith, by linarith, fun _ => ⟨trivial, by linarith⟩⟩
  · have hnn := Real.arccos_nonneg (0.5 * (((red : ℝ) - green) + ((red : ℝ) - blue))
                / Real.sqrt (((red : ℝ) - green) ^ 2
                    + ((red : ℝ) - blue) * ((green : ℝ) - blue)))
    have hle := Real.arccos_le_pi (0.5 * (((red : ℝ) - green) + ((red : ℝ) - blue))
                / Real.sqrt (((red : ℝ) - green) ^ 2
                    + ((red : ℝ) - blue) * ((green : ℝ) - blue)))
    simp only [if_neg hbg]
    exact ⟨hnn, by linarith, fun h => absurd h hbg⟩

/-- Witness of C2 at RGB (0,0,255), pure blue, where the reflected branch is taken. -/
theorem C2_hue_in_range_witness :
    ∃ x, HSI.convertFromRGB ColorspaceInterface.blank 0 0 255 = .ok x ∧ 0 ≤ x.c1 ∧
      x.c1 < 2 * π ∧
      (255 > 0 →
        x.c1 = 2 * π - Real.arccos (0.5 * ((((0 : Nat) : ℝ) - (0 : Nat))
                  + (((0 : Nat) : ℝ) - (255 : Nat)))
                / Real.sqrt ((((0 : Nat) : ℝ) - (0 : Nat)) ^ 2
                    + (((0 : Nat) : ℝ) - (255 : Nat)) * (((0 : Nat) : ℝ) - (255 : Nat))))
        ∧ x.c1 ≠ 2 * π) :=
  C2_hue_in_range ColorspaceInterface.blank 0 0 255 (by decide) (by decide) (by decide)
    (by decide)

/-- C3: for every RGB triple in [0,255]^3, gray or not, `convertFromRGB` succeeds
and sets the intensity c3 to (r+g+b)/3. -/
theorem C3_intensity_is_mean (self : HSI) (red green blue : Nat) (hr : red ≤ 255)
    (hg : green ≤ 255) (hb : blue ≤ 255) :
    ∃ x, HSI.convertFromRGB self red green blue = .ok x ∧
      x.c3 = ((red : ℝ) + green + blue) / 3 :=
  ⟨_, convertFromRGB_eq self red green blue hr hg hb, rfl⟩

/-- Witness of C3 at RGB (10,20,30), a triple that is not gray. -/
theorem C3_intensity_is_mean_witness :
    ∃ x, HSI.convertFromRGB ColorspaceInterface.blank 10 20 30 = .ok x ∧
      x.c3 = (((10 : Nat) : ℝ) + (20 : Nat) + (30 : Nat)) / 3 :=
  C3_intensity_is_mean ColorspaceInterface.blank 10 20 30 (by decide) (by decide)
    (by decide)

/-! ## Saturation and intensity stay in their declared ranges -/

/-- Three times the least channel is at most the sum of the channels. -/
theorem three_min_le_sum (red green blue : Nat) :
    3 * ((min red (min green blue) : Nat) : ℝ) ≤ (red : ℝ) + green + blue := by
  have h1 : min red (min green blue) ≤ red := by omega
  have h2 : min red (min green blue) ≤ green := by omega
  have h3 : min red (min green blue) ≤ blue := by omega
  have h1r : ((min red (min green blue) : Nat) : ℝ) ≤ red := by exact_mod_cast h1
  have h2r : ((min red (min green blue) : Nat) : ℝ) ≤ green := by exact_mod_cast h2
  have h3r : ((min red (min green blue) : Nat) : ℝ) ≤ blue := by exact_mod_cast h3
  linarith

/-- The sum of the channels of a triple that is not gray is positive. -/
theorem sum_pos_of_not_gray (red green blue : Nat)
    (hgray : ¬ (red = green ∧ green = blue)) : 0 < (red : ℝ) + green + blue := by
  have h : 0 < red + green + blue := by omega
  exact_mod_cast h

/-- The saturation and intensity expressions of `convertFromRGB` are in `[0,1]` and
`[0,255]`. -/
theorem channel_bounds (red green blue : Nat) (hr : red ≤ 255) (hg : green ≤ 255)
    (hb : blue ≤ 255) :
    (0 ≤ (if red = green ∧ green = blue then (0 : ℝ)
            else 1 - (3 * ((min red (min green blue) : Nat) : ℝ))
                  / ((red : ℝ) + green + blue)) ∧
      (if red = green ∧ green = blue then (0 : ℝ)
            else 1 - (3 * ((min red (min green blue) : Nat) : ℝ))
                  / ((red : ℝ) + green + blue)) ≤ 1) ∧
    (0 ≤ ((red : ℝ) + green + blue) / 3 ∧ ((red : ℝ) + green + blue) / 3 ≤ 255) := by
  have hr1 : (red : ℝ) ≤ 255 := by exact_mod_cast hr
  have hg1 : (green : ℝ) ≤ 255 := by exact_mod_cast hg
  have hb1 : (blue : ℝ) ≤ 255 := by exact_mod_cast hb
  have hr0 : (0 : ℝ) ≤ red := Nat.cast_nonneg red
  have hg0 : (0 : ℝ) ≤ green := Nat.cast_nonneg green
  have hb0 : (0 : ℝ) ≤ blue := Nat.cast_nonneg blue
  refine ⟨?_, by constructor <;> linarith⟩
  by_cases hgray : red = green ∧ green = blue
  · simp only [if_pos hgray]
    exact ⟨le_refl 0, zero_le_one⟩
  · simp only [if_neg hgray]
    have hs := sum_pos_of_not_gray red green blue hgray
    have hm := three_min_le_sum red green blue
    have hm0 : (0 : ℝ) ≤ 3 * ((min red (min green blue) : Nat) : ℝ) := by positivity
    have hq1 : (3 * ((min red (min green blue) : Nat) : ℝ)) / ((red : ℝ) + green + blue) ≤ 1 :=
      (div_le_one hs).mpr hm
    have hq0 : 0 ≤ (3 * ((min red (min green blue) : Nat) : ℝ)) / ((red : ℝ) + green + blue) :=
      div_nonneg hm0 hs.le
    constructor <;> linarith

/-- What a constructed `HSI` value satisfies: the construction succeeds, the name is
"hsi", the declared bounds are those of the constructor, and the saturation and the
intensity are inside `[0,1]` and `[0,255]`. -/
theorem ctor_spec (red green blue : Nat) (hr : red ≤ 255) (hg : green ≤ 255)
    (hb : blue ≤ 255) :
    ∃ x, HSI.ctor red green blue = .ok x ∧ x.name = "hsi" ∧
      x.c2Min = 0 ∧ x.c2Max = 1 ∧ x.c3Min = 0 ∧ x.c3Max = 255 ∧
      0 ≤ x.c2 ∧ x.c2 ≤ 1 ∧ 0 ≤ x.c3 ∧ x.c3 ≤ 255 := by
  obtain ⟨⟨h1, h2⟩, h3, h4⟩ := channel_bounds red green blue hr hg hb
  exact ⟨_, convertFromRGB_eq _ red green blue hr hg hb, rfl, rfl, rfl, rfl, rfl,
    h1, h2, h3, h4⟩

/-- C4: for every RGB triple in [0,255]^3, `convertFromRGB` (on any receiver)
succeeds with saturation c2 in [0,1] and intensity c3 in [0,255]; on a constructed
`HSI` value these are the ranges [c2Min,c2Max] = [0,1] and [c3Min,c3Max] = [0,255]
that the constructor declares. -/
theorem C4_saturation_intensity_in_range (red green blue : Nat) (hr : red ≤ 255)
    (hg : green ≤ 255) (hb : blue ≤ 255) :
    (∀ self : HSI, ∃ x, HSI.convertFromRGB self red green blue = .ok x ∧
      0 ≤ x.c2 ∧ x.c2 ≤ 1 ∧ 0 ≤ x.c3 ∧ x.c3 ≤ 255) ∧
    (∃ y, HSI.ctor red green blue = .ok y ∧
      y.c2Min = 0 ∧ y.c2Max = 1 ∧ y.c3Min = 0 ∧ y.c3Max = 255 ∧
      y.c2Min ≤ y.c2 ∧ y.c2 ≤ y.c2Max ∧ y.c3Min ≤ y.c3 ∧ y.c3 ≤ y.c3Max) := by
  obtain ⟨⟨h1, h2⟩, h3, h4⟩ := channel_bounds red green blue hr hg hb
  constructor
  · intro self
    exact ⟨_, convertFromRGB_eq self red green blue hr hg hb, h1, h2, h3, h4⟩
  · obtain ⟨y, hy, -, e1, e2, e3, e4, b1, b2, b3, b4⟩ := ctor_spec red green blue hr hg hb
    refine ⟨y, hy, e1, e2, e3, e4, ?_, ?_, ?_, ?_⟩
    · rw [e1]; exact b1
    · rw [e2]; exact b2
    · rw [e3]; exact b3
    · rw [e4]; exact b4

/-- Witness of C4 at RGB (255,0,0), where the saturation reaches its upper bound. -/
theorem C4_saturation_intensity_in_range_witness :
    (∀ self : HSI, ∃ x, HSI.convertFromRGB self 255 0 0 = .ok x ∧
      0 ≤ x.c2 ∧ x.c2 ≤ 1 ∧ 0 ≤ x.c3 ∧ x.c3 ≤ 255) ∧
    (∃ y, HSI.ctor 255 0 0 = .ok y ∧
      y.c2Min = 0 ∧ y.c2Max = 1 ∧ y.c3Min = 0 ∧ y.c3Max = 255 ∧
      y.c2Min ≤ y.c2 ∧ y.c2 ≤ y.c2Max ∧ y.c3Min ≤ y.c3 ∧ y.c3 ≤ y.c3Max) :=
  C4_saturation_intensity_in_range 255 0 0 (by decide) (by decide) (by decide)

/-! ## The two distance functions -/

/-- A value of the receiver's own model is used as it is. -/
theorem toHSI_same (self : HSI) (other : ColorspaceInterface)
    (h : other.name = self.name) : HSI.toHSI self other = .ok other := by
  simp [HSI.toHSI, ColorspaceInterface.getName, h]

/-- A value of another model with a valid RGB triple is replaced by the `HSI` value
constructed from that triple. -/
theorem toHSI_foreign (self : HSI) (other : ColorspaceInterface)
    (h : other.name ≠ self.name) (hr : other.r ≤ 255) (hg : other.g ≤ 255)
    (hb : other.b ≤ 255) :
    HSI.toHSI self other = HSI.ctor other.r other.g other.b := by
  have hw : HSI.ctor 255 255 255 = _ :=
    convertFromRGB_eq _ 255 255 255 (by decide) (by decide) (by decide)
  simp only [HSI.toHSI, ColorspaceInterface.getName, ColorspaceInterface.getRGB, hw]
  rw [if_pos (by simpa using h)]
  simp only [HSI.ctor]
  rw [convertFromRGB_eq _ _ _ _ hr hg hb, convertFromRGB_eq _ _ _ _ hr hg hb]

/-- The value of `distance` on two values of the same model. -/
theorem distance_same (x y : HSI) (h : y.name = x.name) :
    HSI.distance x y
      = .ok (Real.sqrt ((x.c3 - y.c3) ^ 2 + x.c2 ^ 2 + y.c2 ^ 2
          - 2 * x.c2 * y.c2
            * Real.cos (if |x.c1 - y.c1| > π then 2 * π - |x.c1 - y.c1|
                else |x.c1 - y.c1|))) := by
  simp only [HSI.distance, toHSI_same x y h]

/-- The value of `normalizedDistance` on two values of the same model. -/
theorem normalizedDistance_same (x y : HSI) (h : y.name = x.name) :
    HSI.normalizedDistance x y
      = .ok ((x.c3 - y.c3) ^ 2 / (255 : ℝ) ^ 2
              * ((255 : ℝ) ^ 2 / ((255 : ℝ) ^ 2 + 4))
          + (x.c2 ^ 2 + y.c2 ^ 2 - 2 * x.c2 * y.c2
              * Real.cos (if |x.c1 - y.c1| > π then 2 * π - |x.c1 - y.c1|
                  else |x.c1 - y.c1|)) / 4
              * (4 / ((255 : ℝ) ^ 2 + 4))) := by
  simp only [HSI.normalizedDistance, toHSI_same x y h]

/-- In exact real arithmetic: for every HSI value x constructed from an RGB triple
in [0,255]^3, `distance(x, x)` is 0. -/
theorem distance_self_zero_exact (red green blue : Nat) (hr : red ≤ 255)
    (hg : green ≤ 255) (hb : blue ≤ 255) :
    ∃ x, HSI.ctor red green blue = .ok x ∧ HSI.distance x x = .ok 0 := by
  obtain ⟨x, hx, -⟩ := ctor_spec red green blue hr hg hb
  refine ⟨x, hx, ?_⟩
  rw [distance_same x x rfl]
  have h0 : (x.c3 - x.c3) ^ 2 + x.c2 ^ 2 + x.c2 ^ 2
      - 2 * x.c2 * x.c2 * Real.cos (if |x.c1 - x.c1| > π then 2 * π - |x.c1 - x.c1|
                else |x.c1 - x.c1|) = 0 := by
    have hpi := Real.pi_pos
    rw [sub_self x.c1, abs_zero, if_neg (by linarith), Real.cos_zero]
    ring
  rw [h0, Real.sqrt_zero]

/-- C6 (amended): in exact real arithmetic, for all HSI values x and y constructed
from RGB triples in [0,255]^3, `distance(x, y)` and `distance(y, x)` are the same
number. -/
theorem C6_distance_symmetric (r1 g1 b1 r2 g2 b2 : Nat) (hr1 : r1 ≤ 255)
    (hg1 : g1 ≤ 255) (hb1 : b1 ≤ 255) (hr2 : r2 ≤ 255) (hg2 : g2 ≤ 255)
    (hb2 : b2 ≤ 255) :
    ∃ x y d, HSI.ctor r1 g1 b1 = .ok x ∧ HSI.ctor r2 g2 b2 = .ok y ∧
      HSI.distance x y = .ok d ∧ HSI.distance y x = .ok d := by
  obtain ⟨x, hx, nx, -⟩ := ctor_spec r1 g1 b1 hr1 hg1 hb1
  obtain ⟨y, hy, ny, -⟩ := ctor_spec r2 g2 b2 hr2 hg2 hb2
  refine ⟨x, y, _, hx, hy, distance_same x y (by rw [nx, ny]), ?_⟩
  rw [distance_same y x (by rw [nx, ny]), abs_sub_comm y.c1 x.c1]
  congr 2
  ring

/-- Witness of C6 at RGB (255,0,0) and RGB (0,0,255). -/
theorem C6_distance_symmetric_witness :
    ∃ x y d, HSI.ctor 255 0 0 = .ok x ∧ HSI.ctor 0 0 255 = .ok y ∧
      HSI.distance x y = .ok d ∧ HSI.distance y x = .ok d :=
  C6_distance_symmetric 255 0 0 0 0 255 (by decide) (by decide) (by decide)
    (by decide) (by decide) (by decide)

/-- The saturation and hue term of both distances lies in `[0,4]` when both
saturations are in `[0,1]`. -/
theorem hue_saturation_term_bounds (s t θ : ℝ) (hs0 : 0 ≤ s) (hs1 : s ≤ 1)
    (ht0 : 0 ≤ t) (ht1 : t ≤ 1) :
    0 ≤ s ^ 2 + t ^ 2 - 2 * s * t * Real.cos θ ∧
      s ^ 2 + t ^ 2 - 2 * s * t * Real.cos θ ≤ 4 := by
  have hc1 := Real.cos_le_one θ
  have hc2 := Real.neg_one_le_cos θ
  have hst : 0 ≤ s * t := mul_nonneg hs0 ht0
  have hst1 : s * t ≤ 1 := by nlinarith
  have h1 : s * t * Real.cos θ ≤ s * t := by nlinarith
  have h2 : -(s * t) ≤ s * t * Real.cos θ := by nlinarith
  constructor
  · nlinarith [sq_nonneg (s - t)]
  · nlinarith

/-- In exact real arithmetic: for all HSI values x and y constructed from RGB triples
in [0,255]^3, `normalizedDistance(x, y)` is a number in [0,1]. -/
theorem normalizedDistance_in_unit_interval_exact (r1 g1 b1 r2 g2 b2 : Nat)
    (hr1 : r1 ≤ 255) (hg1 : g1 ≤ 255) (hb1 : b1 ≤ 255) (hr2 : r2 ≤ 255)
    (hg2 : g2 ≤ 255) (hb2 : b2 ≤ 255) :
    ∃ x y d, HSI.ctor r1 g1 b1 = .ok x ∧ HSI.ctor r2 g2 b2 = .ok y ∧
      HSI.normalizedDistance x y = .ok d ∧ 0 ≤ d ∧ d ≤ 1 := by
  obtain ⟨x, hx, nx, -, -, -, -, xs0, xs1, xi0, xi1⟩ := ctor_spec r1 g1 b1 hr1 hg1 hb1
  obtain ⟨y, hy, ny, -, -, -, -, ys0, ys1, yi0, yi1⟩ := ctor_spec r2 g2 b2 hr2 hg2 hb2
  refine ⟨x, y, _, hx, hy, normalizedDistance_same x y (by rw [nx, ny]), ?_⟩
  obtain ⟨hd0, hd4⟩ := hue_saturation_term_bounds x.c2 y.c2
    (if |x.c1 - y.c1| > π then 2 * π - |x.c1 - y.c1| else |x.c1 - y.c1|) xs0 xs1 ys0 ys1
  have hi0 : 0 ≤ (x.c3 - y.c3) ^ 2 := sq_nonneg _
  have hi1 : (x.c3 - y.c3) ^ 2 ≤ (255 : ℝ) ^ 2 := by nlinarith
  have key : ∀ a c : ℝ, a / (255 : ℝ) ^ 2 * ((255 : ℝ) ^ 2 / ((255 : ℝ) ^ 2 + 4))
      + c / 4 * (4 / ((255 : ℝ) ^ 2 + 4)) = (a + c) / 65029 := by
    intro a c
    have h255 : ((255 : ℝ) ^ 2 + 4) = 65029 := by norm_num
    rw [h255]
    field_simp
  rw [key]
  constructor
  · apply div_nonneg <;> linarith
  · rw [div_le_one (by norm_num)]
    linarith

/-- Both distances depend on `other` only through its conversion to `HSI`. -/
theorem distance_congr (x : HSI) (a c : ColorspaceInterface)
    (h : HSI.toHSI x a = HSI.toHSI x c) :
    HSI.distance x a = HSI.distance x c ∧
      HSI.normalizedDistance x a = HSI.normalizedDistance x c := by
  simp only [HSI.distance, HSI.normalizedDistance, h, and_self]

/-- C8: for every HSI receiver x and every foreign colour value f whose model name
is not "hsi" and whose `getRGB()` is a valid triple (r,g,b), the HSI value h
constructed directly from (r,g,b) exists, and `distance(x, f)` returns the same
number as `distance(x, h)` and `normalizedDistance(x, f)` the same number as
`normalizedDistance(x, h)`. -/
theorem C8_cross_model_distance (x : HSI) (f : ColorspaceInterface)
    (red green blue : Nat) (hx : x.name = "hsi") (hf : f.getName ≠ "hsi")
    (hrgb : f.getRGB = (red, green, blue)) (hr : red ≤ 255) (hg : green ≤ 255)
    (hb : blue ≤ 255) :
    ∃ h d n, HSI.ctor red green blue = .ok h ∧
      HSI.distance x f = .ok d ∧ HSI.distance x h = .ok d ∧
      HSI.normalizedDistance x f = .ok n ∧ HSI.normalizedDistance x h = .ok n := by
  obtain ⟨h, hh, nh, -⟩ := ctor_spec red green blue hr hg hb
  have e1 : f.r = red := congrArg (fun t => t.1) hrgb
  have e2 : f.g = green := congrArg (fun t => t.2.1) hrgb
  have e3 : f.b = blue := congrArg (fun t => t.2.2) hrgb
  have hfx : f.name ≠ x.name := by rw [hx]; exact hf
  have hconv : HSI.toHSI x f = HSI.toHSI x h := by
    rw [toHSI_foreign x f hfx (by rw [e1]; exact hr) (by rw [e2]; exact hg)
      (by rw [e3]; exact hb), e1, e2, e3, hh, toHSI_same x h (by rw [nh, hx])]
  obtain ⟨hd, hn⟩ := distance_congr x f h hconv
  have hname : h.name = x.name := by rw [nh, hx]
  exact ⟨h, _, _, hh, by rw [hd]; exact distance_same x h hname, distance_same x h hname,
    by rw [hn]; exact normalizedDistance_same x h hname, normalizedDistance_same x h hname⟩

/-- Witness of C8: the receiver is a white `HSI` state and the foreign value is a
value of a model named "rgb" that stores RGB (255,0,0). -/
theorem C8_cross_model_distance_witness :
    ∃ h d n, HSI.ctor 255 0 0 = .ok h ∧
      HSI.distance
          { HSI.declare ColorspaceInterface.blank with
            r := 255, g := 255, b := 255, c1 := π, c2 := 0, c3 := 255 }
          { ColorspaceInterface.blank with name := "rgb", r := 255, g := 0, b := 0 }
        = .ok d ∧
      HSI.distance
          { HSI.declare ColorspaceInterface.blank with
            r := 255, g := 255, b := 255, c1 := π, c2 := 0, c3 := 255 } h = .ok d ∧
      HSI.normalizedDistance
          { HSI.declare ColorspaceInterface.blank with
            r := 255, g := 255, b := 255, c1 := π, c2 := 0, c3 := 255 }
          { ColorspaceInterface.blank with name := "rgb", r := 255, g := 0, b := 0 }
        = .ok n ∧
      HSI.normalizedDistance
          { HSI.declare ColorspaceInterface.blank with
            r := 255, g := 255, b := 255, c1 := π, c2 := 0, c3 := 255 } h = .ok n :=
  C8_cross_model_distance
    { HSI.declare ColorspaceInterface.blank with
      r := 255, g := 255, b := 255, c1 := π, c2 := 0, c3 := 255 }
    { ColorspaceInterface.blank with name := "rgb", r := 255, g := 0, b := 0 }
    255 0 0 rfl (by decide) rfl (by decide) (by decide) (by decide)

/-- C9: `convertFromRGB(255, 0, 0)` succeeds on every receiver and yields hue
c1 = 0, saturation c2 = 1 and intensity c3 = 85. -/
theorem C9_pure_red (self : HSI) :
    ∃ x, HSI.convertFromRGB self 255 0 0 = .ok x ∧ x.c1 = 0 ∧ x.c2 = 1 ∧ x.c3 = 85 := by
  refine ⟨_, convertFromRGB_eq self 255 0 0 (by decide) (by decide) (by decide), ?_, ?_, ?_⟩
  · have hn2 : Real.sqrt ((((255 : Nat) : ℝ) - (0 : Nat)) ^ 2
        + (((255 : Nat) : ℝ) - (0 : Nat)) * (((0 : Nat) : ℝ) - (0 : Nat))) = 255 := by
      have e : (((255 : Nat) : ℝ) - (0 : Nat)) ^ 2
          + (((255 : Nat) : ℝ) - (0 : Nat)) * (((0 : Nat) : ℝ) - (0 : Nat))
          = (255 : ℝ) ^ 2 := by norm_num
      rw [e]
      exact Real.sqrt_sq (by norm_num)
    have hq : (0.5 : ℝ) * ((((255 : Nat) : ℝ) - (0 : Nat)) + (((255 : Nat) : ℝ) - (0 : Nat)))
        / 255 = 1 := by norm_num
    have hgray : ¬ ((255 : Nat) = 0 ∧ (0 : Nat) = 0) := by decide
    rw [if_neg hgray, if_neg (lt_irrefl (0 : Nat)), hn2, hq, Real.arccos_one]
  · have hgray : ¬ ((255 : Nat) = 0 ∧ (0 : Nat) = 0) := by decide
    simp only [if_neg hgray]
    norm_num
  · show (((255 : Nat) : ℝ) + (0 : Nat) + (0 : Nat)) / 3 = 85
    norm_num

/-- C10: the distance between the HSI value of RGB (255,255,255) and the HSI value
of RGB (0,0,0) is exactly 255. -/
theorem C10_distance_white_black :
    ∃ x y, HSI.ctor 255 255 255 = .ok x ∧ HSI.ctor 0 0 0 = .ok y ∧
      HSI.distance x y = .ok 255 := by
  refine ⟨_, _, convertFromRGB_gray _ 255 (by decide), convertFromRGB_gray _ 0 (by decide), ?_⟩
  refine (distance_same _ _ ?_).trans ?_
  · rfl
  have hpi := Real.pi_pos
  simp only [sub_self, abs_zero, if_neg (not_lt.mpr hpi.le), Real.cos_zero]
  have e : (((255 : Nat) : ℝ) - ((0 : Nat) : ℝ)) ^ 2 + (0 : ℝ) ^ 2 + (0 : ℝ) ^ 2
      - 2 * 0 * 0 * 1 = (255 : ℝ) ^ 2 := by norm_num
  rw [e, Real.sqrt_sq (by norm_num)]

/-! ## The range of the raw distance -/

/-- The angle `theta` spelled out. -/
theorem theta_eq (a c : ℝ) :
    HSI.theta a c = if |a - c| > π then 2 * π - |a - c| else |a - c| := rfl

/-- In exact real arithmetic: for all HSI values x and y constructed from RGB triples
in [0,255]^3, `distance(x, y)` is a number d with 0 ≤ d ≤ sqrt(255^2 + 4), the
squared intensity difference is at most 255^2 and the saturation/hue term lies in
[0,4]; and the value is not confined to [0,1]: white against black gives more
than 1. -/
theorem distance_range_exact (r1 g1 b1 r2 g2 b2 : Nat) (hr1 : r1 ≤ 255)
    (hg1 : g1 ≤ 255) (hb1 : b1 ≤ 255) (hr2 : r2 ≤ 255) (hg2 : g2 ≤ 255)
    (hb2 : b2 ≤ 255) :
    (∃ x y d, HSI.ctor r1 g1 b1 = .ok x ∧ HSI.ctor r2 g2 b2 = .ok y ∧
      HSI.distance x y = .ok d ∧ 0 ≤ d ∧ d ≤ Real.sqrt ((255 : ℝ) ^ 2 + 4) ∧
      (x.c3 - y.c3) ^ 2 ≤ (255 : ℝ) ^ 2 ∧
      0 ≤ x.c2 ^ 2 + y.c2 ^ 2 - 2 * x.c2 * y.c2 * Real.cos (HSI.theta x.c1 y.c1) ∧
      x.c2 ^ 2 + y.c2 ^ 2 - 2 * x.c2 * y.c2 * Real.cos (HSI.theta x.c1 y.c1) ≤ 4) ∧
    (∃ x y d, HSI.ctor 255 255 255 = .ok x ∧ HSI.ctor 0 0 0 = .ok y ∧
      HSI.distance x y = .ok d ∧ 1 < d) := by
  constructor
  · obtain ⟨x, hx, nx, -, -, -, -, xs0, xs1, xi0, xi1⟩ := ctor_spec r1 g1 b1 hr1 hg1 hb1
    obtain ⟨y, hy, ny, -, -, -, -, ys0, ys1, yi0, yi1⟩ := ctor_spec r2 g2 b2 hr2 hg2 hb2
    obtain ⟨hd0, hd4⟩ := hue_saturation_term_bounds x.c2 y.c2 (HSI.theta x.c1 y.c1)
      xs0 xs1 ys0 ys1
    have hi1 : (x.c3 - y.c3) ^ 2 ≤ (255 : ℝ) ^ 2 := by nlinarith
    refine ⟨x, y, _, hx, hy, distance_same x y (by rw [nx, ny]), Real.sqrt_nonneg _, ?_,
      hi1, hd0, hd4⟩
    apply Real.sqrt_le_sqrt
    rw [theta_eq] at hd4
    linarith
  · refine ⟨_, _, 255, convertFromRGB_gray _ 255 (by decide),
      convertFromRGB_gray _ 0 (by decide), ?_, by norm_num⟩
    refine (distance_same _ _ ?_).trans ?_
    · rfl
    have hpi := Real.pi_pos
    simp only [sub_self, abs_zero, if_neg (not_lt.mpr hpi.le), Real.cos_zero]
    have e : (((255 : Nat) : ℝ) - ((0 : Nat) : ℝ)) ^ 2 + (0 : ℝ) ^ 2 + (0 : ℝ) ^ 2
        - 2 * 0 * 0 * 1 = (255 : ℝ) ^ 2 := by norm_num
    rw [e, Real.sqrt_sq (by norm_num)]

/-! ## What the conversion writes and what it leaves alone -/

/-- C13: for every valid (r,g,b) and every prior state of the receiver,
`convertFromRGB(r,g,b)` succeeds, the stored RGB triple is then (r,g,b), the
channels c1, c2, c3 are the same whatever the prior state was (they agree with those
obtained from any other prior state), and the name and the six range bounds are
unchanged. -/
theorem C13_conversion_frame (self prior : HSI) (red green blue : Nat)
    (hr : red ≤ 255) (hg : green ≤ 255) (hb : blue ≤ 255) :
    ∃ x y, HSI.convertFromRGB self red green blue = .ok x ∧
      HSI.convertFromRGB prior red green blue = .ok y ∧
      x.getRGB = (red, green, blue) ∧
      x.c1 = y.c1 ∧ x.c2 = y.c2 ∧ x.c3 = y.c3 ∧
      x.name = self.name ∧
      x.c1Min = self.c1Min ∧ x.c2Min = self.c2Min ∧ x.c3Min = self.c3Min ∧
      x.c1Max = self.c1Max ∧ x.c2Max = self.c2Max ∧ x.c3Max = self.c3Max :=
  ⟨_, _, convertFromRGB_eq self red green blue hr hg hb,
    convertFromRGB_eq prior red green blue hr hg hb,
    rfl, rfl, rfl, rfl, rfl, rfl, rfl, rfl, rfl, rfl, rfl⟩

/-- Witness of C13: RGB (10,20,30) written over a white `HSI` state and over a
blank state. -/
theorem C13_conversion_frame_witness :
    ∃ x y, HSI.convertFromRGB
          { HSI.declare ColorspaceInterface.blank with
            r := 255, g := 255, b := 255, c1 := π, c2 := 0, c3 := 255 } 10 20 30 = .ok x ∧
      HSI.convertFromRGB ColorspaceInterface.blank 10 20 30 = .ok y ∧
      x.getRGB = (10, 20, 30) ∧
      x.c1 = y.c1 ∧ x.c2 = y.c2 ∧ x.c3 = y.c3 ∧
      x.name = "hsi" ∧
      x.c1Min = 0 ∧ x.c2Min = 0 ∧ x.c3Min = 0 ∧
      x.c1Max = 2 * π ∧ x.c2Max = 1 ∧ x.c3Max = 255 :=
  C13_conversion_frame
    { HSI.declare ColorspaceInterface.blank with
      r := 255, g := 255, b := 255, c1 := π, c2 := 0, c3 := 255 }
    ColorspaceInterface.blank 10 20 30 (by decide) (by decide) (by decide)

/-! ## The hue formula stays inside the domain of `acos` -/

/-- The quotient `n1 / n2` is in `[-1,1]` unless the three channels are equal. -/
theorem n1_div_n2_mem (x y z : ℝ) (h : ¬ (x = y ∧ y = z)) :
    -1 ≤ 0.5 * ((x - y) + (x - z)) / Real.sqrt ((x - y) ^ 2 + (x - z) * (y - z)) ∧
      0.5 * ((x - y) + (x - z)) / Real.sqrt ((x - y) ^ 2 + (x - z) * (y - z)) ≤ 1 := by
  have hpos := radicand_pos x y z h
  have hs : 0 < Real.sqrt ((x - y) ^ 2 + (x - z) * (y - z)) := Real.sqrt_pos.mpr hpos
  have h3 := radicand_sub_n1_sq x y z
  have h4 : 0 ≤ (y - z) ^ 2 := sq_nonneg _
  have habs : |0.5 * ((x - y) + (x - z))| ≤ Real.sqrt ((x - y) ^ 2 + (x - z) * (y - z)) :=
    Real.abs_le_sqrt (by linarith)
  obtain ⟨hlo, hhi⟩ := abs_le.mp habs
  constructor
  · rw [le_div_iff₀ hs]
    linarith
  · rw [div_le_one hs]
    exact hhi

/-- The channels of a triple that is not gray are not all equal as real numbers. -/
theorem not_gray_cast (red green blue : Nat) (hgray : ¬ (red = green ∧ green = blue)) :
    ¬ ((red : ℝ) = green ∧ (green : ℝ) = blue) := by
  rintro ⟨h1, h2⟩
  exact hgray ⟨by exact_mod_cast h1, by exact_mod_cast h2⟩

/-- C14: for every RGB triple in [0,255]^3 that is not gray, the radicand
(r-g)^2 + (r-b)*(g-b) is a strictly positive integer, so n2 > 0, and the quotient
n1/n2 with n1 = 0.5*((r-g)+(r-b)) lies in [-1,1]: `acos` is applied inside its
domain (there cos(acos q) = q), and the conversion succeeds with the hue computed
from that quotient. -/
theorem C14_acos_argument_in_domain (self : HSI) (red green blue : Nat)
    (hr : red ≤ 255) (hg : green ≤ 255) (hb : blue ≤ 255)
    (hgray : ¬ (red = green ∧ green = blue)) :
    0 < ((red : ℤ) - green) ^ 2 + ((red : ℤ) - blue) * ((green : ℤ) - blue) ∧
    ((red : ℝ) - green) ^ 2 + ((red : ℝ) - blue) * ((green : ℝ) - blue)
      = ((((red : ℤ) - green) ^ 2 + ((red : ℤ) - blue) * ((green : ℤ) - blue) : ℤ) : ℝ) ∧
    0 < Real.sqrt (((red : ℝ) - green) ^ 2 + ((red : ℝ) - blue) * ((green : ℝ) - blue)) ∧
    -1 ≤ 0.5 * (((red : ℝ) - green) + ((red : ℝ) - blue))
          / Real.sqrt (((red : ℝ) - green) ^ 2
              + ((red : ℝ) - blue) * ((green : ℝ) - blue)) ∧
    0.5 * (((red : ℝ) - green) + ((red : ℝ) - blue))
          / Real.sqrt (((red : ℝ) - green) ^ 2
              + ((red : ℝ) - blue) * ((green : ℝ) - blue)) ≤ 1 ∧
    Real.cos (Real.arccos (0.5 * (((red : ℝ) - green) + ((red : ℝ) - blue))
          / Real.sqrt (((red : ℝ) - green) ^ 2
              + ((red : ℝ) - blue) * ((green : ℝ) - blue))))
      = 0.5 * (((red : ℝ) - green) + ((red : ℝ) - blue))
          / Real.sqrt (((red : ℝ) - green) ^ 2
              + ((red : ℝ) - blue) * ((green : ℝ) - blue)) ∧
    ∃ x, HSI.convertFromRGB self red green blue = .ok x ∧
      x.c1 = if green < blue then
          2 * π - Real.arccos (0.5 * (((red : ℝ) - green) + ((red : ℝ) - blue))
            / Real.sqrt (((red : ℝ) - green) ^ 2
                + ((red : ℝ) - blue) * ((green : ℝ) - blue)))
        else
          Real.arccos (0.5 * (((red : ℝ) - green) + ((red : ℝ) - blue))
            / Real.sqrt (((red : ℝ) - green) ^ 2
                + ((red : ℝ) - blue) * ((green : ℝ) - blue))) := by
  have hcast := not_gray_cast red green blue hgray
  have hpos := radicand_pos (red : ℝ) green blue hcast
  have hint : ((red : ℝ) - green) ^ 2 + ((red : ℝ) - blue) * ((green : ℝ) - blue)
      = ((((red : ℤ) - green) ^ 2 + ((red : ℤ) - blue) * ((green : ℤ) - blue) : ℤ) : ℝ) := by
    push_cast
    ring
  obtain ⟨hlo, hhi⟩ := n1_div_n2_mem (red : ℝ) green blue hcast
  refine ⟨?_, hint, Real.sqrt_pos.mpr hpos, hlo, hhi, Real.cos_arccos hlo hhi,
    _, convertFromRGB_eq self red green blue hr hg hb, ?_⟩
  · rw [hint] at hpos
    exact_mod_cast hpos
  · simp only [if_neg hgray]

/-- Witness of C14 at RGB (254,255,255), a triple next to the gray diagonal. -/
theorem C14_acos_argument_in_domain_witness :
    0 < (((254 : Nat) : ℤ) - (255 : Nat)) ^ 2
        + (((254 : Nat) : ℤ) - (255 : Nat)) * (((255 : Nat) : ℤ) - (255 : Nat)) ∧
    0 < Real.sqrt ((((254 : Nat) : ℝ) - (255 : Nat)) ^ 2
        + (((254 : Nat) : ℝ) - (255 : Nat)) * (((255 : Nat) : ℝ) - (255 : Nat))) :=
  ⟨(C14_acos_argument_in_domain ColorspaceInterface.blank 254 255 255 (by decide)
      (by decide) (by decide) (by decide)).1,
    (C14_acos_argument_in_domain ColorspaceInterface.blank 254 255 255 (by decide)
      (by decide) (by decide) (by decide)).2.2.1⟩

/-! ## The saturation never divides by zero -/

/-- C15: `convertFromRGB` never divides by zero when it computes the saturation:
for RGB (0,0,0) it succeeds with saturation 0 (the gray-level value; the division
is not evaluated), and for every triple in [0,255]^3 that is not gray the divisor
sum_rgb = r+g+b is at least 1 and the saturation is 1 - 3*min/sum_rgb. -/
theorem C15_saturation_divisor_nonzero :
    (∀ self : HSI, ∃ x, HSI.convertFromRGB self 0 0 0 = .ok x ∧ x.c2 = 0) ∧
    (∀ (self : HSI) (red green blue : Nat), red ≤ 255 → green ≤ 255 → blue ≤ 255 →
      ¬ (red = green ∧ green = blue) →
      1 ≤ red + green + blue ∧ (1 : ℝ) ≤ (red : ℝ) + green + blue ∧
      ∃ x, HSI.convertFromRGB self red green blue = .ok x ∧
        x.c2 = 1 - (3 * ((min red (min green blue) : Nat) : ℝ))
                  / ((red : ℝ) + green + blue)) := by
  constructor
  · intro self
    exact ⟨_, convertFromRGB_gray self 0 (by decide), rfl⟩
  · intro self red green blue hr hg hb hgray
    have h1 : 1 ≤ red + green + blue := by omega
    refine ⟨h1, by exact_mod_cast h1, _, convertFromRGB_eq self red green blue hr hg hb, ?_⟩
    simp only [if_neg hgray]

/-- Witness of C15 at RGB (0,0,1), the darkest triple that is not gray. -/
theorem C15_saturation_divisor_nonzero_witness :
    1 ≤ 0 + 0 + 1 ∧ (1 : ℝ) ≤ ((0 : Nat) : ℝ) + (0 : Nat) + (1 : Nat) ∧
      ∃ x, HSI.convertFromRGB ColorspaceInterface.blank 0 0 1 = .ok x ∧
        x.c2 = 1 - (3 * ((min 0 (min 0 1) : Nat) : ℝ))
                  / (((0 : Nat) : ℝ) + (0 : Nat) + (1 : Nat)) :=
  C15_saturation_divisor_nonzero.2 ColorspaceInterface.blank 0 0 1 (by decide)
    (by decide) (by decide) (by decide)

/-! ## Swapping green and blue -/

/-- For hues in `[0, 2π]` the angle `theta` is the shorter of the two arcs and lies
in `[0, π]`. -/
theorem theta_shortest (a c : ℝ) (ha0 : 0 ≤ a) (ha1 : a ≤ 2 * π) (hc0 : 0 ≤ c)
    (hc1 : c ≤ 2 * π) :
    HSI.theta a c = min |a - c| (2 * π - |a - c|) ∧ 0 ≤ HSI.theta a c ∧
      HSI.theta a c ≤ π := by
  have hpi := Real.pi_pos
  have habs : |a - c| ≤ 2 * π := abs_le.mpr ⟨by linarith, by linarith⟩
  have hnn : 0 ≤ |a - c| := abs_nonneg _
  rw [theta_eq]
  by_cases h : |a - c| > π
  · rw [if_pos h, min_eq_right (by linarith)]
    exact ⟨rfl, by linarith, by linarith⟩
  · rw [if_neg h, min_eq_left (by linarith)]
    exact ⟨rfl, hnn, not_lt.mp h⟩

/-- C16: for any two HSI values whose hues lie in [0, 2π], the angle theta that
`distance` and `normalizedDistance` use equals min(|c1 - o.c1|, 2π - |c1 - o.c1|)
and lies in [0, π]. -/
theorem C16_theta_shortest_arc (x y : HSI) (hname : y.name = x.name)
    (hx0 : 0 ≤ x.c1) (hx1 : x.c1 ≤ 2 * π) (hy0 : 0 ≤ y.c1) (hy1 : y.c1 ≤ 2 * π) :
    HSI.theta x.c1 y.c1 = min |x.c1 - y.c1| (2 * π - |x.c1 - y.c1|) ∧
    0 ≤ HSI.theta x.c1 y.c1 ∧ HSI.theta x.c1 y.c1 ≤ π ∧
    HSI.distance x y
      = .ok (Real.sqrt ((x.c3 - y.c3) ^ 2 + x.c2 ^ 2 + y.c2 ^ 2
          - 2 * x.c2 * y.c2 * Real.cos (HSI.theta x.c1 y.c1))) ∧
    HSI.normalizedDistance x y
      = .ok ((x.c3 - y.c3) ^ 2 / (255 : ℝ) ^ 2
              * ((255 : ℝ) ^ 2 / ((255 : ℝ) ^ 2 + 4))
          + (x.c2 ^ 2 + y.c2 ^ 2
              - 2 * x.c2 * y.c2 * Real.cos (HSI.theta x.c1 y.c1)) / 4
              * (4 / ((255 : ℝ) ^ 2 + 4))) := by
  obtain ⟨h1, h2, h3⟩ := theta_shortest x.c1 y.c1 hx0 hx1 hy0 hy1
  exact ⟨h1, h2, h3, distance_same x y hname, normalizedDistance_same x y hname⟩

/-- Witness of C16: a state with hue 0 against a state with hue 2π, the two ends of
the declared hue range, where the wraparound branch is taken. -/
theorem C16_theta_shortest_arc_witness :
    HSI.theta (0 : ℝ) (2 * π) = min |(0 : ℝ) - 2 * π| (2 * π - |(0 : ℝ) - 2 * π|) ∧
    0 ≤ HSI.theta (0 : ℝ) (2 * π) ∧ HSI.theta (0 : ℝ) (2 * π) ≤ π :=
  have h := C16_theta_shortest_arc
    { HSI.declare ColorspaceInterface.blank with c1 := 0, c2 := 1, c3 := 85 }
    { HSI.declare ColorspaceInterface.blank with c1 := 2 * π, c2 := 1, c3 := 85 }
    rfl (le_refl (0 : ℝ)) (show (0 : ℝ) ≤ 2 * π by linarith [Real.pi_pos])
    (show (0 : ℝ) ≤ 2 * π by linarith [Real.pi_pos]) (le_refl (2 * π))
  ⟨h.1, h.2.1, h.2.2.1⟩

/-! ## The normalised distance as a multiple of the squared distance -/

/-- The saturation and hue term is non-negative for all real arguments. -/
theorem hue_saturation_term_nonneg (s t θ : ℝ) :
    0 ≤ s ^ 2 + t ^ 2 - 2 * s * t * Real.cos θ := by
  have hc1 : 0 ≤ 1 - Real.cos θ := by linarith [Real.cos_le_one θ]
  have hc2 : 0 ≤ 1 + Real.cos θ := by linarith [Real.neg_one_le_cos θ]
  nlinarith [mul_nonneg hc1 (sq_nonneg (s + t)), mul_nonneg hc2 (sq_nonneg (s - t))]

/-- C19: for all HSI values x and y, both functions succeed and
normalizedDistance(x, y) = distance(x, y)^2 / (255^2 + 4); equivalently the
intensity term and the saturation/hue term are added with the same weight
1/65029. -/
theorem C19_normalized_is_scaled_square (x y : HSI) (hname : y.name = x.name) :
    ∃ d n, HSI.distance x y = .ok d ∧ HSI.normalizedDistance x y = .ok n ∧
      n = d ^ 2 / ((255 : ℝ) ^ 2 + 4) ∧
      n = 1 / 65029 * (x.c3 - y.c3) ^ 2
          + 1 / 65029 * (x.c2 ^ 2 + y.c2 ^ 2
              - 2 * x.c2 * y.c2 * Real.cos (HSI.theta x.c1 y.c1)) := by
  refine ⟨_, _, distance_same x y hname, normalizedDistance_same x y hname, ?_, ?_⟩
  · have hnn : 0 ≤ (x.c3 - y.c3) ^ 2 + x.c2 ^ 2 + y.c2 ^ 2
        - 2 * x.c2 * y.c2 * Real.cos (HSI.theta x.c1 y.c1) := by
      have h1 := sq_nonneg (x.c3 - y.c3)
      have h2 := hue_saturation_term_nonneg x.c2 y.c2 (HSI.theta x.c1 y.c1)
      linarith
    rw [← theta_eq, Real.sq_sqrt hnn]
    have h255 : ((255 : ℝ) ^ 2 + 4) = 65029 := by norm_num
    rw [h255]
    field_simp
    ring
  · rw [← theta_eq]
    have h255 : ((255 : ℝ) ^ 2 + 4) = 65029 := by norm_num
    rw [h255]
    field_simp

/-- Witness of C19: a white state against a pure red state. -/
theorem C19_normalized_is_scaled_square_witness :
    ∃ d n,
      HSI.distance
          { HSI.declare ColorspaceInterface.blank with
            r := 255, g := 255, b := 255, c1 := π, c2 := 0, c3 := 255 }
          { HSI.declare ColorspaceInterface.blank with
            r := 255, g := 0, b := 0, c1 := 0, c2 := 1, c3 := 85 } = .ok d ∧
      HSI.normalizedDistance
          { HSI.declare ColorspaceInterface.blank with
            r := 255, g := 255, b := 255, c1 := π, c2 := 0, c3 := 255 }
          { HSI.declare ColorspaceInterface.blank with
            r := 255, g := 0, b := 0, c1 := 0, c2 := 1, c3 := 85 } = .ok n ∧
      n = d ^ 2 / ((255 : ℝ) ^ 2 + 4) ∧
      n = 1 / 65029 * ((255 : ℝ) - 85) ^ 2
          + 1 / 65029 * ((0 : ℝ) ^ 2 + (1 : ℝ) ^ 2
              - 2 * 0 * 1 * Real.cos (HSI.theta π 0)) :=
  C19_normalized_is_scaled_square
    { HSI.declare ColorspaceInterface.blank with
      r := 255, g := 255, b := 255, c1 := π, c2 := 0, c3 := 255 }
    { HSI.declare ColorspaceInterface.blank with
      r := 255, g := 0, b := 0, c1 := 0, c2 := 1, c3 := 85 } rfl

/-! ## When the distance vanishes -/

/-- The hue expression of a triple that is not gray lies in `[0, 2π)`. -/
theorem hue_expr_range (red green blue : Nat) :
    0 ≤ (if green < blue then
          2 * π - Real.arccos (0.5 * (((red : ℝ) - green) + ((red : ℝ) - blue))
            / Real.sqrt (((red : ℝ) - green) ^ 2
                + ((red : ℝ) - blue) * ((green : ℝ) - blue)))
        else
          Real.arccos (0.5 * (((red : ℝ) - green) + ((red : ℝ) - blue))
            / Real.sqrt (((red : ℝ) - green) ^ 2
                + ((red : ℝ) - blue) * ((green : ℝ) - blue)))) ∧
    (if green < blue then
          2 * π - Real.arccos (0.5 * (((red : ℝ) - green) + ((red : ℝ) - blue))
            / Real.sqrt (((red : ℝ) - green) ^ 2
                + ((red : ℝ) - blue) * ((green : ℝ) - blue)))
        else
          Real.arccos (0.5 * (((red : ℝ) - green) + ((red : ℝ) - blue))
            / Real.sqrt (((red : ℝ) - green) ^ 2
                + ((red : ℝ) - blue) * ((green : ℝ) - blue)))) < 2 * π := by
  have hpi := Real.pi_pos
  have hnn := Real.arccos_nonneg (0.5 * (((red : ℝ) - green) + ((red : ℝ) - blue))
            / Real.sqrt (((red : ℝ) - green) ^ 2
                + ((red : ℝ) - blue) * ((green : ℝ) - blue)))
  have hle := Real.arccos_le_pi (0.5 * (((red : ℝ) - green) + ((red : ℝ) - blue))
            / Real.sqrt (((red : ℝ) - green) ^ 2
                + ((red : ℝ) - blue) * ((green : ℝ) - blue)))
  by_cases hbg : green < blue
  · have hne : (green : ℝ) ≠ blue := by
      have : (green : ℝ) < blue := by exact_mod_cast hbg
      exact ne_of_lt this
    have hpos := Real.arccos_pos.mpr (n1_div_n2_lt_one (red : ℝ) green blue hne)
    rw [if_pos hbg]
    constructor <;> linarith
  · rw [if_neg hbg]
    constructor <;> linarith

/-- The saturation of a triple that is not gray is positive. -/
theorem saturation_pos (red green blue : Nat) (hgray : ¬ (red = green ∧ green = blue)) :
    0 < 1 - (3 * ((min red (min green blue) : Nat) : ℝ)) / ((red : ℝ) + green + blue) := by
  have hs := sum_pos_of_not_gray red green blue hgray
  have hlt : 3 * min red (min green blue) < red + green + blue := by omega
  have hltr : 3 * ((min red (min green blue) : Nat) : ℝ) < (red : ℝ) + green + blue := by
    exact_mod_cast hlt
  have hq : (3 * ((min red (min green blue) : Nat) : ℝ)) / ((red : ℝ) + green + blue) < 1 :=
    (div_lt_one hs).mpr hltr
  linarith

/-- The channels of a constructed `HSI` value: the hue is in `[0, 2π)`, the
saturation is non-negative, and a zero saturation comes with the hue `π`. -/
theorem ctor_channels (red green blue : Nat) (hr : red ≤ 255) (hg : green ≤ 255)
    (hb : blue ≤ 255) :
    ∃ x, HSI.ctor red green blue = .ok x ∧ x.name = "hsi" ∧
      0 ≤ x.c1 ∧ x.c1 < 2 * π ∧ 0 ≤ x.c2 ∧ (x.c2 = 0 → x.c1 = π) := by
  refine ⟨_, convertFromRGB_eq _ red green blue hr hg hb, rfl, ?_⟩
  have hpi := Real.pi_pos
  by_cases hgray : red = green ∧ green = blue
  · simp only [if_pos hgray]
    exact ⟨hpi.le, by linarith, le_refl 0, fun _ => trivial⟩
  · simp only [if_neg hgray]
    obtain ⟨h0, h1⟩ := hue_expr_range red green blue
    have hsat := saturation_pos red green blue hgray
    exact ⟨h0, h1, hsat.le, fun h => absurd h (ne_of_gt hsat)⟩

/-- The distance expression vanishes exactly when the three channels agree, for
hues in `[0, 2π)` and saturations that are non-negative and zero only with the
hue `π`. -/
theorem distance_expr_eq_zero_iff (a c s t u v : ℝ) (ha0 : 0 ≤ a) (ha1 : a < 2 * π)
    (hc0 : 0 ≤ c) (hc1 : c < 2 * π) (hs : 0 ≤ s) (ht : 0 ≤ t) (hsa : s = 0 → a = π)
    (htc : t = 0 → c = π) :
    Real.sqrt ((u - v) ^ 2 + s ^ 2 + t ^ 2 - 2 * s * t * Real.cos (HSI.theta a c)) = 0
      ↔ a = c ∧ s = t ∧ u = v := by
  have hpi := Real.pi_pos
  obtain ⟨-, hθ0, hθ1⟩ := theta_shortest a c ha0 ha1.le hc0 hc1.le
  have hcos1 : 0 ≤ 1 - Real.cos (HSI.theta a c) := by
    linarith [Real.cos_le_one (HSI.theta a c)]
  have hst : 0 ≤ s * t := mul_nonneg hs ht
  have hsplit : (u - v) ^ 2 + s ^ 2 + t ^ 2 - 2 * s * t * Real.cos (HSI.theta a c)
      = (u - v) ^ 2 + (s - t) ^ 2 + 2 * (s * t) * (1 - Real.cos (HSI.theta a c)) := by
    ring
  constructor
  · intro h
    have hle := Real.sqrt_eq_zero'.mp h
    rw [hsplit] at hle
    have h1 := sq_nonneg (u - v)
    have h2 := sq_nonneg (s - t)
    have h3 : 0 ≤ 2 * (s * t) * (1 - Real.cos (HSI.theta a c)) :=
      mul_nonneg (by linarith) hcos1
    have e1 : (u - v) ^ 2 = 0 := by linarith
    have e2 : (s - t) ^ 2 = 0 := by linarith
    have e3 : 2 * (s * t) * (1 - Real.cos (HSI.theta a c)) = 0 := by linarith
    have huv : u = v := by
      have := pow_eq_zero_iff (two_ne_zero) |>.mp e1
      linarith
    have hst2 : s = t := by
      have := pow_eq_zero_iff (two_ne_zero) |>.mp e2
      linarith
    refine ⟨?_, hst2, huv⟩
    by_cases hs0 : s = 0
    · rw [hsa hs0, htc (by rw [← hst2]; exact hs0)]
    · have hspos : 0 < s := lt_of_le_of_ne hs (Ne.symm hs0)
      have htpos : 0 < t := by rw [← hst2]; exact hspos
      have hprod : 0 < 2 * (s * t) := by positivity
      have hcos : Real.cos (HSI.theta a c) = 1 := by
        rcases mul_eq_zero.mp e3 with h0 | h0
        · exact absurd h0 (ne_of_gt hprod)
        · linarith
      have hθ : HSI.theta a c = 0 :=
        (Real.cos_eq_one_iff_of_lt_of_lt (by linarith) (by linarith)).mp hcos
      have habs : |a - c| < 2 * π := abs_lt.mpr ⟨by linarith, by linarith⟩
      rw [theta_eq] at hθ
      by_cases hgt : |a - c| > π
      · rw [if_pos hgt] at hθ
        linarith
      · rw [if_neg hgt] at hθ
        have := abs_eq_zero.mp hθ
        linarith
  · rintro ⟨hac, hst2, huv⟩
    subst hac; subst hst2; subst huv
    have hθ : HSI.theta a a = 0 := by
      rw [theta_eq, sub_self, abs_zero, if_neg (by linarith)]
    rw [hθ, Real.cos_zero]
    have e : (u - u) ^ 2 + s ^ 2 + s ^ 2 - 2 * s * s * 1 = 0 := by ring
    rw [e, Real.sqrt_zero]

/-- In exact real arithmetic: for all HSI values x and y constructed from RGB triples
in [0,255]^3, `distance(x, y)` is 0 if and only if x and y have the same hue, the
same saturation and the same intensity. -/
theorem distance_zero_iff_same_channels_exact (r1 g1 b1 r2 g2 b2 : Nat)
    (hr1 : r1 ≤ 255) (hg1 : g1 ≤ 255) (hb1 : b1 ≤ 255) (hr2 : r2 ≤ 255)
    (hg2 : g2 ≤ 255) (hb2 : b2 ≤ 255) :
    ∃ x y d, HSI.ctor r1 g1 b1 = .ok x ∧ HSI.ctor r2 g2 b2 = .ok y ∧
      HSI.distance x y = .ok d ∧
      (d = 0 ↔ x.c1 = y.c1 ∧ x.c2 = y.c2 ∧ x.c3 = y.c3) := by
  obtain ⟨x, hx, nx, xa0, xa1, xs, xsa⟩ := ctor_channels r1 g1 b1 hr1 hg1 hb1
  obtain ⟨y, hy, ny, ya0, ya1, ys, ysa⟩ := ctor_channels r2 g2 b2 hr2 hg2 hb2
  refine ⟨x, y, _, hx, hy, distance_same x y (by rw [nx, ny]), ?_⟩
  rw [← theta_eq]
  exact distance_expr_eq_zero_iff x.c1 y.c1 x.c2 y.c2 x.c3 y.c3 xa0 xa1 ya0 ya1 xs ys
    xsa ysa

/-! ## Rejected input -/

/-- The statement-by-statement conversion and `HSI.convertFromRGB` describe the same
call: the same outcome, and on success the same members. -/
theorem convertFromRGB_members_agrees (self : HSI) (red green blue : Nat) :
    HSI.convertFromRGB self red green blue
      = match (HSI.convertFromRGB_members self red green blue).2 with
        | .ok () => .ok (HSI.convertFromRGB_members self red green blue).1
        | .error e => .error e := by
  unfold HSI.convertFromRGB HSI.convertFromRGB_members
  cases hc : checkRGB red green blue with
  | error e => rfl
  | ok u =>
    by_cases hgray : red = green ∧ green = blue
    · obtain ⟨h1, h2⟩ := hgray
      subst h1; subst h2
      simp
    · have hgray2 : red = green → ¬ green = blue := fun h1 h2 => hgray ⟨h1, h2⟩
      have hgray3 : ¬ red = green ∨ ¬ green = blue := not_and_or.mp hgray
      by_cases hbg : green < blue <;> simp [hgray2, hgray3, hbg]

/-- The check rejects a triple with a channel above 255. -/
theorem checkRGB_error {red green blue : Nat} (h : 255 < red ∨ 255 < green ∨ 255 < blue) :
    checkRGB red green blue = .error .InvalidInput := by
  have hn : ¬ (red ≤ 255 ∧ green ≤ 255 ∧ blue ≤ 255) := by omega
  simp only [checkRGB, if_neg hn]

/-- C12: if any of r, g, b is outside [0,255], `checkRGB` raises InvalidInput,
`convertFromRGB` fails with it, and the members of the receiver (r, g, b, c1, c2, c3
and the rest) are exactly as they were before the call. -/
theorem C12_invalid_input_rejected (self : HSI) (red green blue : Nat)
    (h : 255 < red ∨ 255 < green ∨ 255 < blue) :
    checkRGB red green blue = .error .InvalidInput ∧
    HSI.convertFromRGB self red green blue = .error .InvalidInput ∧
    HSI.convertFromRGB_members self red green blue = (self, .error .InvalidInput) := by
  have hc := checkRGB_error h
  refine ⟨hc, ?_, ?_⟩
  · simp only [HSI.convertFromRGB, hc]
  · simp only [HSI.convertFromRGB_members, hc]

/-- Witness of C12: RGB (256,0,0) offered to a white `HSI` state. -/
theorem C12_invalid_input_rejected_witness :
    checkRGB 256 0 0 = .error .InvalidInput ∧
    HSI.convertFromRGB
        { HSI.declare ColorspaceInterface.blank with
          r := 255, g := 255, b := 255, c1 := π, c2 := 0, c3 := 255 } 256 0 0
      = .error .InvalidInput ∧
    HSI.convertFromRGB_members
        { HSI.declare ColorspaceInterface.blank with
          r := 255, g := 255, b := 255, c1 := π, c2 := 0, c3 := 255 } 256 0 0
      = ({ HSI.declare ColorspaceInterface.blank with
          r := 255, g := 255, b := 255, c1 := π, c2 := 0, c3 := 255 },
          .error .InvalidInput) :=
  C12_invalid_input_rejected
    { HSI.declare ColorspaceInterface.blank with
      r := 255, g := 255, b := 255, c1 := π, c2 := 0, c3 := 255 }
    256 0 0 (Or.inl (by decide))

/-! ## Which object the distance functions destroy -/

/-- A destroyed object is no longer alive. -/
theorem deref_delete_self (heap : Heap) (p : Nat) : (heap.delete p).deref p = none := by
  unfold Heap.deref Heap.delete
  by_cases hp : p < heap.cells.length
  · simp [List.getElem?_set, hp]
  · simp [List.getElem?_set, hp]

/-- Destroying one object leaves the objects at other addresses as they are. -/
theorem deref_delete_other (heap : Heap) (p q : Nat) (hpq : p ≠ q) :
    (heap.delete p).deref q = heap.deref q := by
  unfold Heap.deref Heap.delete
  simp [List.getElem?_set, hpq]

/-- A live pointer is an address inside the store. -/
theorem deref_some_lt (heap : Heap) (p : Nat) (v : ColorspaceInterface)
    (h : heap.deref p = some v) : p < heap.cells.length := by
  unfold Heap.deref at h
  by_contra hp
  rw [List.getElem?_eq_none (by omega)] at h
  simp at h

/-- On an argument of the receiver's own model, `o` is the pointer `other` itself
and nothing is allocated. -/
theorem toHSI_heap_same (self : HSI) (heap : Heap) (other : Nat)
    (otherObj : ColorspaceInterface) (hd : heap.deref other = some otherObj)
    (hn : otherObj.name = self.name) :
    HSI.toHSI_heap self heap other = some (.ok (other, otherObj), heap) := by
  simp [HSI.toHSI_heap, hd, ColorspaceInterface.getName, hn]

/-- On an argument of the receiver's own model, `distance` returns the number of
the value-level function and destroys the object `other` points to. -/
theorem distance_heap_same (self : HSI) (heap : Heap) (other : Nat)
    (otherObj : ColorspaceInterface) (hd : heap.deref other = some otherObj)
    (hn : otherObj.name = self.name) :
    ∃ d, HSI.distance self otherObj = .ok d ∧
      HSI.distance_heap self heap other = some (.ok d, heap.delete other) ∧
      (heap.delete other).deref other = none := by
  refine ⟨_, distance_same self otherObj hn, ?_, deref_delete_self heap other⟩
  simp only [HSI.distance_heap, toHSI_heap_same self heap other otherObj hd hn]

/-- On an argument of the receiver's own model, `normalizedDistance` returns the
number of the value-level function and destroys the object `other` points to. -/
theorem normalizedDistance_heap_same (self : HSI) (heap : Heap) (other : Nat)
    (otherObj : ColorspaceInterface) (hd : heap.deref other = some otherObj)
    (hn : otherObj.name = self.name) :
    ∃ d, HSI.normalizedDistance self otherObj = .ok d ∧
      HSI.normalizedDistance_heap self heap other = some (.ok d, heap.delete other) ∧
      (heap.delete other).deref other = none := by
  refine ⟨_, normalizedDistance_same self otherObj hn, ?_, deref_delete_self heap other⟩
  simp only [HSI.normalizedDistance_heap, toHSI_heap_same self heap other otherObj hd hn]

/-- On an argument of the receiver's own model the store-level `distance` returns
what the value-level `distance` returns, and the store after it is the store with
the object of `other` destroyed. -/
theorem distance_heap_of_value (self : HSI) (heap : Heap) (other : Nat)
    (otherObj : ColorspaceInterface) (d : ℝ) (hd : heap.deref other = some otherObj)
    (hn : otherObj.name = self.name) (hv : HSI.distance self otherObj = .ok d) :
    HSI.distance_heap self heap other = some (.ok d, heap.delete other) := by
  obtain ⟨e, he, hh, -⟩ := distance_heap_same self heap other otherObj hd hn
  rw [hv] at he
  cases he
  exact hh

/-- The same for `normalizedDistance`. -/
theorem normalizedDistance_heap_of_value (self : HSI) (heap : Heap) (other : Nat)
    (otherObj : ColorspaceInterface) (d : ℝ) (hd : heap.deref other = some otherObj)
    (hn : otherObj.name = self.name) (hv : HSI.normalizedDistance self otherObj = .ok d) :
    HSI.normalizedDistance_heap self heap other = some (.ok d, heap.delete other) := by
  obtain ⟨e, he, hh, -⟩ := normalizedDistance_heap_same self heap other otherObj hd hn
  rw [hv] at he
  cases he
  exact hh

/-- On an argument of another model with a valid RGB triple, `o` is a fresh object
holding the `HSI` value of that triple, and the store has grown by that object. -/
theorem toHSI_heap_foreign (self : HSI) (heap : Heap) (other : Nat)
    (f : ColorspaceInterface) (hd : heap.deref other = some f)
    (hn : f.name ≠ self.name) (hr : f.r ≤ 255) (hg : f.g ≤ 255) (hb : f.b ≤ 255) :
    ∃ t, HSI.toHSI self f = .ok t ∧
      HSI.toHSI_heap self heap other
        = some (.ok (heap.cells.length, t), { cells := heap.cells ++ [some t] }) := by
  have hw : HSI.ctor 255 255 255 = _ :=
    convertFromRGB_eq _ 255 255 255 (by decide) (by decide) (by decide)
  have hne : (f.name != self.name) = true := by simpa using hn
  refine ⟨_, (toHSI_foreign self f hn hr hg hb).trans
    (convertFromRGB_eq _ _ _ _ hr hg hb), ?_⟩
  simp only [HSI.toHSI_heap, hd, ColorspaceInterface.getName, hne, if_true,
    ColorspaceInterface.getRGB, hw, Heap.new, convertFromRGB_eq _ _ _ _ hr hg hb,
    Heap.store]
  simp [HSI.declare]

/-- The number `distance` returns, from the converted argument. -/
theorem distance_of_toHSI (self : HSI) (a : ColorspaceInterface) (t : HSI)
    (h : HSI.toHSI self a = .ok t) :
    HSI.distance self a
      = .ok (Real.sqrt ((self.c3 - t.c3) ^ 2 + self.c2 ^ 2 + t.c2 ^ 2
          - 2 * self.c2 * t.c2 * Real.cos (HSI.theta self.c1 t.c1))) := by
  simp only [HSI.distance, h, theta_eq]

/-- The number `normalizedDistance` returns, from the converted argument. -/
theorem normalizedDistance_of_toHSI (self : HSI) (a : ColorspaceInterface) (t : HSI)
    (h : HSI.toHSI self a = .ok t) :
    HSI.normalizedDistance self a
      = .ok ((self.c3 - t.c3) ^ 2 / (255 : ℝ) ^ 2
              * ((255 : ℝ) ^ 2 / ((255 : ℝ) ^ 2 + 4))
          + (self.c2 ^ 2 + t.c2 ^ 2
              - 2 * self.c2 * t.c2 * Real.cos (HSI.theta self.c1 t.c1)) / 4
              * (4 / ((255 : ℝ) ^ 2 + 4))) := by
  simp only [HSI.normalizedDistance, h, theta_eq]

/-- The result of the store-level `distance`, from the pointer `o` and its object. -/
theorem distance_heap_of_toHSI (self : HSI) (heap mid : Heap) (other o : Nat) (t : HSI)
    (h : HSI.toHSI_heap self heap other = some (.ok (o, t), mid)) :
    HSI.distance_heap self heap other
      = some (.ok (Real.sqrt ((self.c3 - t.c3) ^ 2 + self.c2 ^ 2 + t.c2 ^ 2
          - 2 * self.c2 * t.c2 * Real.cos (HSI.theta self.c1 t.c1))), mid.delete o) := by
  simp only [HSI.distance_heap, h, theta_eq]

/-- The result of the store-level `normalizedDistance`, from the pointer `o` and its
object. -/
theorem normalizedDistance_heap_of_toHSI (self : HSI) (heap mid : Heap) (other o : Nat)
    (t : HSI) (h : HSI.toHSI_heap self heap other = some (.ok (o, t), mid)) :
    HSI.normalizedDistance_heap self heap other
      = some (.ok ((self.c3 - t.c3) ^ 2 / (255 : ℝ) ^ 2
              * ((255 : ℝ) ^ 2 / ((255 : ℝ) ^ 2 + 4))
          + (self.c2 ^ 2 + t.c2 ^ 2
              - 2 * self.c2 * t.c2 * Real.cos (HSI.theta self.c1 t.c1)) / 4
              * (4 / ((255 : ℝ) ^ 2 + 4))), mid.delete o) := by
  simp only [HSI.normalizedDistance_heap, h, theta_eq]

/-- In a store grown by one object, destroying that object leaves the earlier
objects as they were. -/
theorem deref_delete_appended (heap : Heap) (t : ColorspaceInterface) (q : Nat)
    (hq : q < heap.cells.length) :
    (Heap.delete { cells := heap.cells ++ [some t] } heap.cells.length).deref q
      = heap.deref q := by
  rw [deref_delete_other _ _ _ (by omega)]
  simp [Heap.deref, List.getElem?_append_left hq]

/-- On an argument of another model with a valid RGB triple, `distance` returns the
number of the value-level function, destroys the temporary it allocated, and leaves
every object of the caller, the one `other` points to included, alive and
unchanged. -/
theorem distance_heap_foreign (self : HSI) (heap : Heap) (other : Nat)
    (f : ColorspaceInterface) (hd : heap.deref other = some f)
    (hn : f.name ≠ self.name) (hr : f.r ≤ 255) (hg : f.g ≤ 255) (hb : f.b ≤ 255) :
    ∃ d after, HSI.distance self f = .ok d ∧
      HSI.distance_heap self heap other = some (.ok d, after) ∧
      after.deref heap.cells.length = none ∧
      ∀ q, q < heap.cells.length → after.deref q = heap.deref q := by
  obtain ⟨t, ht, hheap⟩ := toHSI_heap_foreign self heap other f hd hn hr hg hb
  exact ⟨_, _, distance_of_toHSI self f t ht,
    distance_heap_of_toHSI self heap _ other _ t hheap, deref_delete_self _ _,
    fun q hq => deref_delete_appended heap t q hq⟩

/-- The same for `normalizedDistance`. -/
theorem normalizedDistance_heap_foreign (self : HSI) (heap : Heap) (other : Nat)
    (f : ColorspaceInterface) (hd : heap.deref other = some f)
    (hn : f.name ≠ self.name) (hr : f.r ≤ 255) (hg : f.g ≤ 255) (hb : f.b ≤ 255) :
    ∃ d after, HSI.normalizedDistance self f = .ok d ∧
      HSI.normalizedDistance_heap self heap other = some (.ok d, after) ∧
      after.deref heap.cells.length = none ∧
      ∀ q, q < heap.cells.length → after.deref q = heap.deref q := by
  obtain ⟨t, ht, hheap⟩ := toHSI_heap_foreign self heap other f hd hn hr hg hb
  exact ⟨_, _, normalizedDistance_of_toHSI self f t ht,
    normalizedDistance_heap_of_toHSI self heap _ other _ t hheap, deref_delete_self _ _,
    fun q hq => deref_delete_appended heap t q hq⟩

/-- C18 (the code departs from it): with a white receiver and `other` pointing to
the `HSI` value of RGB (0,0,0), an object of the same model that the caller owns,
`distance` returns 255 and `normalizedDistance` returns a number, and after either
call the caller's object is destroyed: the pointer no longer refers to a live
object, and a further call through it has no defined result. -/
theorem C18_same_model_argument_destroyed :
    ∃ white black, HSI.ctor 255 255 255 = .ok white ∧ HSI.ctor 0 0 0 = .ok black ∧
      Heap.deref { cells := [some black] } 0 = some black ∧
      HSI.distance_heap white { cells := [some black] } 0
        = some (.ok 255, { cells := [none] }) ∧
      HSI.normalizedDistance_heap white { cells := [some black] } 0
        = some (.ok (65025 / 65029), { cells := [none] }) ∧
      Heap.deref { cells := [none] } 0 = none ∧
      HSI.distance_heap white { cells := [none] } 0 = none ∧
      HSI.normalizedDistance_heap white { cells := [none] } 0 = none := by
  have hpi := Real.pi_pos
  refine ⟨_, _, convertFromRGB_gray _ 255 (by decide), convertFromRGB_gray _ 0 (by decide),
    rfl, ?_, ?_, rfl, rfl, rfl⟩
  · refine distance_heap_of_value _ _ 0 _ _ (by rfl) (by rfl) ?_
    refine (distance_same _ _ ?_).trans ?_
    · rfl
    simp only [sub_self, abs_zero, if_neg (not_lt.mpr hpi.le), Real.cos_zero]
    have e : (((255 : Nat) : ℝ) - ((0 : Nat) : ℝ)) ^ 2 + (0 : ℝ) ^ 2 + (0 : ℝ) ^ 2
        - 2 * 0 * 0 * 1 = (255 : ℝ) ^ 2 := by norm_num
    rw [e, Real.sqrt_sq (by norm_num)]
  · refine normalizedDistance_heap_of_value _ _ 0 _ _ (by rfl) (by rfl) ?_
    refine (normalizedDistance_same _ _ ?_).trans ?_
    · rfl
    simp only [sub_self, abs_zero, if_neg (not_lt.mpr hpi.le), Real.cos_zero]
    have e : (((255 : Nat) : ℝ) - ((0 : Nat) : ℝ)) ^ 2 / (255 : ℝ) ^ 2
          * ((255 : ℝ) ^ 2 / ((255 : ℝ) ^ 2 + 4))
        + ((0 : ℝ) ^ 2 + (0 : ℝ) ^ 2 - 2 * 0 * 0 * 1) / 4 * (4 / ((255 : ℝ) ^ 2 + 4))
        = 65025 / 65029 := by norm_num
    rw [e]

/-! ## Rounding -/

/-- A real number within half a unit of an integer rounds to it. -/
theorem roundHalfEven_eq (m : ℝ) (M : ℤ) (hlo : (M : ℝ) - 1 / 2 < m)
    (hhi : m < (M : ℝ) + 1 / 2) : roundHalfEven m = M := by
  unfold roundHalfEven
  rcases le_or_lt (M : ℝ) m with h | h
  · have hf : ⌊m⌋ = M := Int.floor_eq_iff.mpr ⟨h, by linarith⟩
    rw [hf, if_pos (by linarith)]
  · have hf : ⌊m⌋ = M - 1 :=
      Int.floor_eq_iff.mpr ⟨by push_cast; linarith, by push_cast; linarith⟩
    rw [hf, if_neg (by push_cast; linarith), if_pos (by push_cast; linarith)]
    ring

/-- A real number half-way between two integers rounds to the even one. -/
theorem roundHalfEven_tie (m : ℝ) (M : ℤ) (hM : M % 2 = 0)
    (hm : m = (M : ℝ) + 1 / 2 ∨ m = (M : ℝ) - 1 / 2) : roundHalfEven m = M := by
  have heven : Even M := Int.even_iff.mpr hM
  unfold roundHalfEven
  rcases hm with h | h
  · have hf : ⌊m⌋ = M := Int.floor_eq_iff.mpr ⟨by linarith, by linarith⟩
    rw [hf, if_neg (by linarith), if_neg (by linarith), if_pos heven]
  · have hf : ⌊m⌋ = M - 1 :=
      Int.floor_eq_iff.mpr ⟨by push_cast; linarith, by push_cast; linarith⟩
    have hodd : ¬ Even (M - 1) := by
      rw [Int.even_iff]
      omega
    rw [hf, if_neg (by push_cast; linarith), if_neg (by push_cast; linarith), if_neg hodd]
    ring

/-- The rounding of a non-negative number is non-negative. -/
theorem roundHalfEven_nonneg (m : ℝ) (hm : 0 ≤ m) : 0 ≤ roundHalfEven m := by
  have hf : 0 ≤ ⌊m⌋ := Int.floor_nonneg.mpr hm
  unfold roundHalfEven
  split_ifs <;> omega

/-- The binary exponent of a number in the binade `[2^k, 2^(k+1))`. -/
theorem log_two_abs (x : ℝ) (k : ℤ) (h1 : (2 : ℝ) ^ k ≤ |x|)
    (h2 : |x| < (2 : ℝ) ^ (k + 1)) : Int.log 2 |x| = k := by
  have hpos : 0 < |x| := lt_of_lt_of_le (by positivity) h1
  have a : k ≤ Int.log 2 |x| :=
    (Int.zpow_le_iff_le_log (by norm_num) hpos).mp (by exact_mod_cast h1)
  have b : Int.log 2 |x| < k + 1 :=
    (Int.lt_zpow_iff_log_lt (by norm_num) hpos).mp (by exact_mod_cast h2)
  omega

/-- Zero is a floating-point number. -/
theorem roundTo_zero (p : ℕ) (x : ℝ) (hx : x = 0) : roundTo p x = 0 := by
  rw [roundTo, if_pos hx]

/-- The value of `roundTo` at a number `x` of the binade `[2^k, 2^(k+1))` (in
absolute value) that lies within half a unit in the last place `s` of `M * s`. -/
theorem roundTo_eq (p : ℕ) (x s : ℝ) (k M : ℤ) (hs : s = (2 : ℝ) ^ (k - ((p : ℤ) - 1)))
    (h1 : (2 : ℝ) ^ k ≤ |x|) (h2 : |x| < (2 : ℝ) ^ (k + 1))
    (hlo : ((M : ℝ) - 1 / 2) * s < x) (hhi : x < ((M : ℝ) + 1 / 2) * s) :
    roundTo p x = (M : ℝ) * s := by
  have hpos : 0 < |x| := lt_of_lt_of_le (by positivity) h1
  have hx : x ≠ 0 := abs_pos.mp hpos
  have hspos : 0 < s := by rw [hs]; positivity
  unfold roundTo
  rw [if_neg hx]
  simp only [log_two_abs x k h1 h2, ← hs]
  rw [roundHalfEven_eq (x / s) M ((lt_div_iff₀ hspos).mpr hlo) ((div_lt_iff₀ hspos).mpr hhi)]

/-- The same for a positive number, with the result given as a number `c`. -/
theorem roundTo_pos (p : ℕ) (x c s : ℝ) (k M : ℤ)
    (h : c = (M : ℝ) * s ∧ s = (2 : ℝ) ^ (k - ((p : ℤ) - 1)) ∧
      (2 : ℝ) ^ k ≤ x ∧ x < (2 : ℝ) ^ (k + 1) ∧
      ((M : ℝ) - 1 / 2) * s < x ∧ x < ((M : ℝ) + 1 / 2) * s) :
    roundTo p x = c := by
  obtain ⟨hc, hs, h1, h2, hlo, hhi⟩ := h
  have hx : 0 < x := lt_of_lt_of_le (by positivity) h1
  rw [hc]
  exact roundTo_eq p x s k M hs (by rw [abs_of_pos hx]; exact h1)
    (by rw [abs_of_pos hx]; exact h2) hlo hhi

/-- The value of `roundTo` at a positive number half-way between two neighbouring
floating-point numbers: the one with the even significand `M`. -/
theorem roundTo_tie (p : ℕ) (x c s : ℝ) (k M : ℤ)
    (h : c = (M : ℝ) * s ∧ s = (2 : ℝ) ^ (k - ((p : ℤ) - 1)) ∧
      (2 : ℝ) ^ k ≤ x ∧ x < (2 : ℝ) ^ (k + 1) ∧ M % 2 = 0 ∧
      (x = ((M : ℝ) + 1 / 2) * s ∨ x = ((M : ℝ) - 1 / 2) * s)) :
    roundTo p x = c := by
  obtain ⟨hc, hs, h1, h2, hM, hx⟩ := h
  have hpos : 0 < x := lt_of_lt_of_le (by positivity) h1
  have hx0 : x ≠ 0 := ne_of_gt hpos
  have hspos : 0 < s := by rw [hs]; positivity
  have hm : x / s = (M : ℝ) + 1 / 2 ∨ x / s = (M : ℝ) - 1 / 2 := by
    rcases hx with h | h
    · left; rw [h]; field_simp; ring
    · right; rw [h]; field_simp; ring
  unfold roundTo
  rw [if_neg hx0]
  simp only [log_two_abs x k (by rw [abs_of_pos hpos]; exact h1)
    (by rw [abs_of_pos hpos]; exact h2), ← hs]
  rw [roundHalfEven_tie (x / s) M hM hm, hc]

/-- The same for a negative number. -/
theorem roundTo_neg (p : ℕ) (x c s : ℝ) (k M : ℤ)
    (h : c = (M : ℝ) * s ∧ s = (2 : ℝ) ^ (k - ((p : ℤ) - 1)) ∧
      (2 : ℝ) ^ k ≤ -x ∧ -x < (2 : ℝ) ^ (k + 1) ∧
      ((M : ℝ) - 1 / 2) * s < x ∧ x < ((M : ℝ) + 1 / 2) * s) :
    roundTo p x = c := by
  obtain ⟨hc, hs, h1, h2, hlo, hhi⟩ := h
  have hx : x < 0 := by
    have : 0 < -x := lt_of_lt_of_le (by positivity) h1
    linarith
  rw [hc]
  exact roundTo_eq p x s k M hs (by rw [abs_of_neg hx]; exact h1)
    (by rw [abs_of_neg hx]; exact h2) hlo hhi

/-- The value of `roundTo` at a square root. -/
theorem roundTo_sqrt (p : ℕ) (a c s : ℝ) (k M : ℤ)
    (h : c = (M : ℝ) * s ∧ s = (2 : ℝ) ^ (k - ((p : ℤ) - 1)) ∧
      ((2 : ℝ) ^ k) ^ 2 ≤ a ∧ a < ((2 : ℝ) ^ (k + 1)) ^ 2 ∧
      0 < ((M : ℝ) - 1 / 2) * s ∧
      (((M : ℝ) - 1 / 2) * s) ^ 2 < a ∧ a < (((M : ℝ) + 1 / 2) * s) ^ 2) :
    roundTo p (Real.sqrt a) = c := by
  obtain ⟨hc, hs, h1, h2, hM, hlo, hhi⟩ := h
  have hk : (0 : ℝ) < (2 : ℝ) ^ k := by positivity
  have hk1 : (0 : ℝ) < (2 : ℝ) ^ (k + 1) := by positivity
  have hspos : 0 < s := by rw [hs]; positivity
  have hM2 : 0 < ((M : ℝ) + 1 / 2) * s := by nlinarith
  exact roundTo_pos p (Real.sqrt a) c s k M ⟨hc, hs,
    (Real.le_sqrt' hk).mpr h1, (Real.sqrt_lt' hk1).mpr h2,
    (Real.lt_sqrt hM.le).mpr hlo, (Real.sqrt_lt' hM2).mpr hhi⟩

/-- The rounding of a non-negative number is non-negative. -/
theorem roundTo_nonneg (p : ℕ) (x : ℝ) (hx : 0 ≤ x) : 0 ≤ roundTo p x := by
  unfold roundTo
  split_ifs with h
  · exact le_refl 0
  · have hm : 0 ≤ x / (2 : ℝ) ^ (Int.log 2 |x| - ((p : ℤ) - 1)) :=
      div_nonneg hx (by positivity)
    have := roundHalfEven_nonneg _ hm
    have h2 : (0 : ℝ) ≤ (roundHalfEven (x / (2 : ℝ) ^ (Int.log 2 |x| - ((p : ℤ) - 1))) : ℝ) := by
      exact_mod_cast this
    positivity

/-! ## The operations on finite numbers -/

theorem Double.ofNat_eq (n : Nat) (c : ℝ) (h : roundTo 53 (n : ℝ) = c) :
    Double.ofNat n = some c := by
  rw [← h]; rfl

theorem Double.add_eq (a b c : ℝ) (h : roundTo 53 (a + b) = c) :
    Double.add (some a) (some b) = some c := by
  rw [← h]; rfl

theorem Double.sub_eq (a b c : ℝ) (h : roundTo 53 (a - b) = c) :
    Double.sub (some a) (some b) = some c := by
  rw [← h]; rfl

theorem Double.mul_eq (a b c : ℝ) (h : roundTo 53 (a * b) = c) :
    Double.mul (some a) (some b) = some c := by
  rw [← h]; rfl

theorem Double.div_eq (a b c : ℝ) (hb : b ≠ 0) (h : roundTo 53 (a / b) = c) :
    Double.div (some a) (some b) = some c := by
  rw [← h]; simp only [Double.div, if_neg hb]

theorem Double.sqrt_eq (a c : ℝ) (ha : 0 ≤ a) (h : roundTo 53 (Real.sqrt a) = c) :
    Double.sqrt (some a) = some c := by
  rw [← h]; simp only [Double.sqrt, if_neg (not_lt.mpr ha)]

theorem pow_correctlyRounded_eq (a c : ℝ) (h : roundTo 53 (a * a) = c) :
    Libm.correctlyRounded.pow (some a) (some 2) = some c := by
  rw [← h]
  simp only [Libm.correctlyRounded, Real.rpow_two, sq]

theorem acos_correctlyRounded_one : Libm.correctlyRounded.acos (some 1) = some 0 := by
  have h : (-1 : ℝ) ≤ 1 ∧ (1 : ℝ) ≤ 1 := by norm_num
  simp only [Libm.correctlyRounded, if_pos h, Real.arccos_one]
  exact congrArg some (roundTo_zero 53 _ rfl)

theorem cos_correctlyRounded_zero : Libm.correctlyRounded.cos (some 0) = some 1 := by
  simp only [Libm.correctlyRounded, Real.cos_zero]
  exact congrArg some
    (roundTo_pos 53 _ _ (1 / 2 ^ 52) 0 4503599627370496 (by norm_num))

theorem Double.abs_some_zero : Double.abs (some 0) = some 0 := by
  simp only [Double.abs, abs_zero]

/-- Zero is not greater than `M_PI`. -/
theorem Double.gt_zero_M_PI : Double.gt (some 0) M_PI = false := by
  have h : ¬ ((0 : ℝ) > roundTo 53 π) := not_lt.mpr (roundTo_nonneg 53 π Real.pi_pos.le)
  simp only [Double.gt, M_PI, decide_eq_false_iff_not]
  exact h

theorem Double.sqrt_neg (a : ℝ) (ha : a < 0) : Double.sqrt (some a) = none := by
  simp only [Double.sqrt, if_pos ha]

theorem Float32.ofDouble_eq (a c : ℝ) (h : roundTo 24 a = c) :
    Float32.ofDouble (some a) = some c := by
  rw [← h]; rfl

theorem Float32.add_float_eq (a b c : ℝ) (h : roundTo 24 (a + b) = c) :
    Float32.add (some a) (some b) = some c := by
  rw [← h]; rfl

theorem Float32.div_float_eq (a b c : ℝ) (hb : b ≠ 0) (h : roundTo 24 (a / b) = c) :
    Float32.div (some a) (some b) = some c := by
  rw [← h]; simp only [Float32.div, if_neg hb]

/-! ## A pair of colours whose distance depends on the order -/

/-- The conversion of RGB (42,0,0) in double precision, with a correctly rounded
math library: hue 0, saturation `1`, intensity 14. -/
theorem convertFromRGB_double_42_0_0 (self : HSIDouble) :
    HSI.convertFromRGB_double Libm.correctlyRounded self 42 0 0
      = .ok { self with
          r := 42, g := 0, b := 0, c1 := some 0, c2 := some 1, c3 := some 14 } := by
  have e1 : Double.ofNat 42 = some 42 :=
    Double.ofNat_eq _ _ (roundTo_pos 53 _ _ (1 / 2 ^ 47) 5 5910974510923776 (by norm_num))
  have e2 : Double.ofNat 0 = some 0 :=
    Double.ofNat_eq _ _ (roundTo_zero 53 _ (by norm_num))
  have e3 : Double.sub (some 42) (some 0) = some 42 :=
    Double.sub_eq _ _ _ (roundTo_pos 53 _ _ (1 / 2 ^ 47) 5 5910974510923776 (by norm_num))
  have e4 : Double.sub (some 0) (some 0) = some 0 :=
    Double.sub_eq _ _ _ (roundTo_zero 53 _ (by norm_num))
  have e5 : Double.add (some 42) (some 42) = some 84 :=
    Double.add_eq _ _ _ (roundTo_pos 53 _ _ (1 / 2 ^ 46) 6 5910974510923776 (by norm_num))
  have e6 : Double.mul (some 0.5) (some 84) = some 42 :=
    Double.mul_eq _ _ _ (roundTo_pos 53 _ _ (1 / 2 ^ 47) 5 5910974510923776 (by norm_num))
  have e7 : Libm.correctlyRounded.pow (some 42) (some 2) = some 1764 :=
    pow_correctlyRounded_eq _ _ (roundTo_pos 53 _ _ (1 / 2 ^ 42) 10 7758154045587456 (by norm_num))
  have e8 : Double.mul (some 42) (some 0) = some 0 :=
    Double.mul_eq _ _ _ (roundTo_zero 53 _ (by norm_num))
  have e9 : Double.add (some 1764) (some 0) = some 1764 :=
    Double.add_eq _ _ _ (roundTo_pos 53 _ _ (1 / 2 ^ 42) 10 7758154045587456 (by norm_num))
  have e10 : Double.sqrt (some 1764) = some 42 :=
    Double.sqrt_eq _ _ (by norm_num) (roundTo_sqrt 53 _ _ (1 / 2 ^ 47) 5 5910974510923776 (by norm_num))
  have e11 : Double.div (some 42) (some 42) = some 1 :=
    Double.div_eq _ _ _ (by norm_num) (roundTo_pos 53 _ _ (1 / 2 ^ 52) 0 4503599627370496 (by norm_num))
  have e12 : Double.add (some 42) (some 0) = some 42 :=
    Double.add_eq _ _ _ (roundTo_pos 53 _ _ (1 / 2 ^ 47) 5 5910974510923776 (by norm_num))
  have e13 : Double.mul (some 3) (some 0) = some 0 :=
    Double.mul_eq _ _ _ (roundTo_zero 53 _ (by norm_num))
  have e14 : Double.div (some 0) (some 42) = some 0 :=
    Double.div_eq _ _ _ (by norm_num) (roundTo_zero 53 _ (by norm_num))
  have e15 : Double.sub (some 1) (some 0) = some 1 :=
    Double.sub_eq _ _ _ (roundTo_pos 53 _ _ (1 / 2 ^ 52) 0 4503599627370496 (by norm_num))
  have e16 : Double.div (some 42) (some 3) = some 14 :=
    Double.div_eq _ _ _ (by norm_num) (roundTo_pos 53 _ _ (1 / 2 ^ 49) 3 7881299347898368 (by norm_num))
  have hgray : (!(42 == 0 && 0 == 0)) = true := by decide
  have hmin : min 42 (min 0 0) = 0 := by decide
  have hblue : ¬ (0 > 0) := by decide
  simp only [HSI.convertFromRGB_double,
    checkRGB_ok (show 42 ≤ 255 by decide) (show 0 ≤ 255 by decide) (show 0 ≤ 255 by decide),
    hgray, hmin, hblue, if_true, if_false, acos_correctlyRounded_one,
    e1, e2, e3, e4, e5, e6, e7, e8, e9, e10, e11, e12, e13, e14, e15, e16]

/-- The conversion of RGB (29,8,8) in double precision, with a correctly rounded
math library: hue 0, saturation `4203359652212463 / 2 ^ 53`, intensity 15. -/
theorem convertFromRGB_double_29_8_8 (self : HSIDouble) :
    HSI.convertFromRGB_double Libm.correctlyRounded self 29 8 8
      = .ok { self with
          r := 29, g := 8, b := 8, c1 := some 0, c2 := some (4203359652212463 / 2 ^ 53), c3 := some 15 } := by
  have e1 : Double.ofNat 29 = some 29 :=
    Double.ofNat_eq _ _ (roundTo_pos 53 _ _ (1 / 2 ^ 48) 4 8162774324609024 (by norm_num))
  have e2 : Double.ofNat 8 = some 8 :=
    Double.ofNat_eq _ _ (roundTo_pos 53 _ _ (1 / 2 ^ 49) 3 4503599627370496 (by norm_num))
  have e3 : Double.sub (some 29) (some 8) = some 21 :=
    Double.sub_eq _ _ _ (roundTo_pos 53 _ _ (1 / 2 ^ 48) 4 5910974510923776 (by norm_num))
  have e4 : Double.sub (some 8) (some 8) = some 0 :=
    Double.sub_eq _ _ _ (roundTo_zero 53 _ (by norm_num))
  have e5 : Double.add (some 21) (some 21) = some 42 :=
    Double.add_eq _ _ _ (roundTo_pos 53 _ _ (1 / 2 ^ 47) 5 5910974510923776 (by norm_num))
  have e6 : Double.mul (some 0.5) (some 42) = some 21 :=
    Double.mul_eq _ _ _ (roundTo_pos 53 _ _ (1 / 2 ^ 48) 4 5910974510923776 (by norm_num))
  have e7 : Libm.correctlyRounded.pow (some 21) (some 2) = some 441 :=
    pow_correctlyRounded_eq _ _ (roundTo_pos 53 _ _ (1 / 2 ^ 44) 8 7758154045587456 (by norm_num))
  have e8 : Double.mul (some 21) (some 0) = some 0 :=
    Double.mul_eq _ _ _ (roundTo_zero 53 _ (by norm_num))
  have e9 : Double.add (some 441) (some 0) = some 441 :=
    Double.add_eq _ _ _ (roundTo_pos 53 _ _ (1 / 2 ^ 44) 8 7758154045587456 (by norm_num))
  have e10 : Double.sqrt (some 441) = some 21 :=
    Double.sqrt_eq _ _ (by norm_num) (roundTo_sqrt 53 _ _ (1 / 2 ^ 48) 4 5910974510923776 (by norm_num))
  have e11 : Double.div (some 21) (some 21) = some 1 :=
    Double.div_eq _ _ _ (by norm_num) (roundTo_pos 53 _ _ (1 / 2 ^ 52) 0 4503599627370496 (by norm_num))
  have e12 : Double.add (some 29) (some 8) = some 37 :=
    Double.add_eq _ _ _ (roundTo_pos 53 _ _ (1 / 2 ^ 47) 5 5207287069147136 (by norm_num))
  have e13 : Double.add (some 37) (some 8) = some 45 :=
    Double.add_eq _ _ _ (roundTo_pos 53 _ _ (1 / 2 ^ 47) 5 6333186975989760 (by norm_num))
  have e14 : Double.mul (some 3) (some 8) = some 24 :=
    Double.mul_eq _ _ _ (roundTo_pos 53 _ _ (1 / 2 ^ 48) 4 6755399441055744 (by norm_num))
  have e15 : Double.div (some 24) (some 45) = some (4803839602528529 / 2 ^ 53) :=
    Double.div_eq _ _ _ (by norm_num) (roundTo_pos 53 _ _ (1 / 2 ^ 53) (-1) 4803839602528529 (by norm_num))
  have e16 : Double.sub (some 1) (some (4803839602528529 / 2 ^ 53)) = some (4203359652212463 / 2 ^ 53) :=
    Double.sub_eq _ _ _ (roundTo_pos 53 _ _ (1 / 2 ^ 54) (-2) 8406719304424926 (by norm_num))
  have e17 : Double.div (some 45) (some 3) = some 15 :=
    Double.div_eq _ _ _ (by norm_num) (roundTo_pos 53 _ _ (1 / 2 ^ 49) 3 8444249301319680 (by norm_num))
  have hgray : (!(29 == 8 && 8 == 8)) = true := by decide
  have hmin : min 29 (min 8 8) = 8 := by decide
  have hblue : ¬ (8 > 8) := by decide
  simp only [HSI.convertFromRGB_double,
    checkRGB_ok (show 29 ≤ 255 by decide) (show 8 ≤ 255 by decide) (show 8 ≤ 255 by decide),
    hgray, hmin, hblue, if_true, if_false, acos_correctlyRounded_one,
    e1, e2, e3, e4, e5, e6, e7, e8, e9, e10, e11, e12, e13, e14, e15, e16, e17]

/-- The distance from RGB (42,0,0) to RGB (29,8,8) in double precision, with a correctly
rounded math library: `0x1.2222222222222p+0`. -/
theorem distance_double_42_0_0_29_8_8 :
    HSI.distance_double Libm.correctlyRounded
        { HSI.declare_double ColorspaceInterfaceDouble.blank with
          r := 42, g := 0, b := 0, c1 := some 0, c2 := some 1, c3 := some 14 }
        { HSI.declare_double ColorspaceInterfaceDouble.blank with
          r := 29, g := 8, b := 8, c1 := some 0, c2 := some (4203359652212463 / 2 ^ 53), c3 := some 15 }
      = .ok (some (2552039788843281 / 2 ^ 51)) := by
  have e1 : Double.sub (some 0) (some 0) = some 0 :=
    Double.sub_eq _ _ _ (roundTo_zero 53 _ (by norm_num))
  have e2 : Double.sub (some 14) (some 15) = some (-1) :=
    Double.sub_eq _ _ _ (roundTo_neg 53 _ _ (1 / 2 ^ 52) 0 (-4503599627370496) (by norm_num))
  have e3 : Libm.correctlyRounded.pow (some (-1)) (some 2) = some 1 :=
    pow_correctlyRounded_eq _ _ (roundTo_pos 53 _ _ (1 / 2 ^ 52) 0 4503599627370496 (by norm_num))
  have e4 : Libm.correctlyRounded.pow (some 1) (some 2) = some 1 :=
    pow_correctlyRounded_eq _ _ (roundTo_pos 53 _ _ (1 / 2 ^ 52) 0 4503599627370496 (by norm_num))
  have e5 : Libm.correctlyRounded.pow (some (4203359652212463 / 2 ^ 53)) (some 2) = some (3923135675398299 / 2 ^ 54) :=
    pow_correctlyRounded_eq _ _ (roundTo_pos 53 _ _ (1 / 2 ^ 55) (-3) 7846271350796598 (by norm_num))
  have e6 : Double.add (some 1) (some 1) = some 2 :=
    Double.add_eq _ _ _ (roundTo_pos 53 _ _ (1 / 2 ^ 51) 1 4503599627370496 (by norm_num))
  have e7 : Double.add (some 2) (some (3923135675398299 / 2 ^ 54)) = some (4993991586795283 / 2 ^ 51) :=
    Double.add_eq _ _ _ (roundTo_pos 53 _ _ (1 / 2 ^ 51) 1 4993991586795283 (by norm_num))
  have e8 : Double.mul (some 2) (some 1) = some 2 :=
    Double.mul_eq _ _ _ (roundTo_pos 53 _ _ (1 / 2 ^ 51) 1 4503599627370496 (by norm_num))
  have e9 : Double.mul (some 2) (some (4203359652212463 / 2 ^ 53)) = some (4203359652212463 / 2 ^ 52) :=
    Double.mul_eq _ _ _ (roundTo_pos 53 _ _ (1 / 2 ^ 53) (-1) 8406719304424926 (by norm_num))
  have e10 : Double.mul (some (4203359652212463 / 2 ^ 52)) (some 1) = some (4203359652212463 / 2 ^ 52) :=
    Double.mul_eq _ _ _ (roundTo_pos 53 _ _ (1 / 2 ^ 53) (-1) 8406719304424926 (by norm_num))
  have e11 : Double.sub (some (4993991586795283 / 2 ^ 51)) (some (4203359652212463 / 2 ^ 52)) = some (5784623521378103 / 2 ^ 52) :=
    Double.sub_eq _ _ _ (roundTo_pos 53 _ _ (1 / 2 ^ 52) 0 5784623521378103 (by norm_num))
  have e12 : Double.sqrt (some (5784623521378103 / 2 ^ 52)) = some (2552039788843281 / 2 ^ 51) :=
    Double.sqrt_eq _ _ (by norm_num) (roundTo_sqrt 53 _ _ (1 / 2 ^ 52) 0 5104079577686562 (by norm_num))
  have hname : ("hsi" != "hsi") = false := by decide
  simp only [HSI.distance_double, HSI.toHSI_double, ColorspaceInterfaceDouble.getName,
    HSI.declare_double, hname, Bool.false_eq_true, if_false, Double.abs_some_zero,
    Double.gt_zero_M_PI, cos_correctlyRounded_zero,
    e1, e2, e3, e4, e5, e6, e7, e8, e9, e10, e11, e12]

/-- The distance from RGB (29,8,8) to RGB (42,0,0) in double precision, with a correctly
rounded math library: `0x1.2222222222223p+0`. -/
theorem distance_double_29_8_8_42_0_0 :
    HSI.distance_double Libm.correctlyRounded
        { HSI.declare_double ColorspaceInterfaceDouble.blank with
          r := 29, g := 8, b := 8, c1 := some 0, c2 := some (4203359652212463 / 2 ^ 53), c3 := some 15 }
        { HSI.declare_double ColorspaceInterfaceDouble.blank with
          r := 42, g := 0, b := 0, c1 := some 0, c2 := some 1, c3 := some 14 }
      = .ok (some (5104079577686563 / 2 ^ 52)) := by
  have e1 : Double.sub (some 0) (some 0) = some 0 :=
    Double.sub_eq _ _ _ (roundTo_zero 53 _ (by norm_num))
  have e2 : Double.sub (some 15) (some 14) = some 1 :=
    Double.sub_eq _ _ _ (roundTo_pos 53 _ _ (1 / 2 ^ 52) 0 4503599627370496 (by norm_num))
  have e3 : Libm.correctlyRounded.pow (some 1) (some 2) = some 1 :=
    pow_correctlyRounded_eq _ _ (roundTo_pos 53 _ _ (1 / 2 ^ 52) 0 4503599627370496 (by norm_num))
  have e4 : Libm.correctlyRounded.pow (some (4203359652212463 / 2 ^ 53)) (some 2) = some (3923135675398299 / 2 ^ 54) :=
    pow_correctlyRounded_eq _ _ (roundTo_pos 53 _ _ (1 / 2 ^ 55) (-3) 7846271350796598 (by norm_num))
  have e5 : Double.add (some 1) (some (3923135675398299 / 2 ^ 54)) = some (5484383546220071 / 2 ^ 52) :=
    Double.add_eq _ _ _ (roundTo_pos 53 _ _ (1 / 2 ^ 52) 0 5484383546220071 (by norm_num))
  have e6 : Double.add (some (5484383546220071 / 2 ^ 52)) (some 1) = some (1248497896698821 / 2 ^ 49) :=
    Double.add_eq _ _ _ (roundTo_tie 53 _ _ (1 / 2 ^ 51) 1 4993991586795284 (by norm_num))
  have e7 : Double.mul (some 2) (some (4203359652212463 / 2 ^ 53)) = some (4203359652212463 / 2 ^ 52) :=
    Double.mul_eq _ _ _ (roundTo_pos 53 _ _ (1 / 2 ^ 53) (-1) 8406719304424926 (by norm_num))
  have e8 : Double.mul (some (4203359652212463 / 2 ^ 52)) (some 1) = some (4203359652212463 / 2 ^ 52) :=
    Double.mul_eq _ _ _ (roundTo_pos 53 _ _ (1 / 2 ^ 53) (-1) 8406719304424926 (by norm_num))
  have e9 : Double.sub (some (1248497896698821 / 2 ^ 49)) (some (4203359652212463 / 2 ^ 52)) = some (5784623521378105 / 2 ^ 52) :=
    Double.sub_eq _ _ _ (roundTo_pos 53 _ _ (1 / 2 ^ 52) 0 5784623521378105 (by norm_num))
  have e10 : Double.sqrt (some (5784623521378105 / 2 ^ 52)) = some (5104079577686563 / 2 ^ 52) :=
    Double.sqrt_eq _ _ (by norm_num) (roundTo_sqrt 53 _ _ (1 / 2 ^ 52) 0 5104079577686563 (by norm_num))
  have hname : ("hsi" != "hsi") = false := by decide
  simp only [HSI.distance_double, HSI.toHSI_double, ColorspaceInterfaceDouble.getName,
    HSI.declare_double, hname, Bool.false_eq_true, if_false, Double.abs_some_zero,
    Double.gt_zero_M_PI, cos_correctlyRounded_zero,
    e1, e2, e3, e4, e5, e6, e7, e8, e9, e10]

/-- C6 (as stated, refuted in double precision): with a correctly rounded math
library the `HSI` values x of RGB (42,0,0) and y of RGB (29,8,8) are constructed,
`distance(x, y)` returns `0x1.2222222222222p+0` and `distance(y, x)` returns
`0x1.2222222222223p+0`, and these two doubles differ. -/
theorem C6_distance_asymmetric_in_doubles :
    ∃ x y, HSI.ctor_double Libm.correctlyRounded 42 0 0 = .ok x ∧
      HSI.ctor_double Libm.correctlyRounded 29 8 8 = .ok y ∧
      HSI.distance_double Libm.correctlyRounded x y = .ok (some (2552039788843281 / 2 ^ 51)) ∧
      HSI.distance_double Libm.correctlyRounded y x = .ok (some (5104079577686563 / 2 ^ 52)) ∧
      ((2552039788843281 / 2 ^ 51) : ℝ) ≠ (5104079577686563 / 2 ^ 52) :=
  ⟨_, _, convertFromRGB_double_42_0_0 _, convertFromRGB_double_29_8_8 _,
    distance_double_42_0_0_29_8_8, distance_double_29_8_8_42_0_0, by norm_num⟩

/-! ## A colour whose distance to itself is not a number -/

/-- The conversion of RGB (14,14,205) in double precision, for every math library
whose `pow` squares 0 to 0 and whose `acos` returns a finite number `a` at -1/2: the
hue is `2*M_PI - a`, the saturation is `saturation_14_14_205`, the intensity is
`0x1.36aaaaaaaaaabp+6`. -/
theorem convertFromRGB_double_14_14_205 (L : Libm) (self : HSIDouble) (a : ℝ)
    (hpow0 : L.pow (some 0) (some 2) = some 0)
    (hacos : L.acos (some (-1 / 2)) = some a) :
    HSI.convertFromRGB_double L self 14 14 205
      = .ok { self with
          r := 14, g := 14, b := 205,
          c1 := Double.sub (Double.mul (some 2) M_PI) (some a),
          c2 := some saturation_14_14_205, c3 := some (5465305797798571 / 2 ^ 46) } := by
  have e1 : Double.ofNat 14 = some 14 :=
    Double.ofNat_eq _ _ (roundTo_pos 53 _ _ (1 / 2 ^ 49) 3 7881299347898368 (by norm_num))
  have e2 : Double.ofNat 205 = some 205 :=
    Double.ofNat_eq _ _ (roundTo_pos 53 _ _ (1 / 2 ^ 45) 7 7212796278210560 (by norm_num))
  have e3 : Double.sub (some 14) (some 14) = some 0 :=
    Double.sub_eq _ _ _ (roundTo_zero 53 _ (by norm_num))
  have e4 : Double.sub (some 14) (some 205) = some (-191) :=
    Double.sub_eq _ _ _ (roundTo_neg 53 _ _ (1 / 2 ^ 45) 7 (-6720215068966912) (by norm_num))
  have e5 : Double.add (some 0) (some (-191)) = some (-191) :=
    Double.add_eq _ _ _ (roundTo_neg 53 _ _ (1 / 2 ^ 45) 7 (-6720215068966912) (by norm_num))
  have e6 : Double.mul (some 0.5) (some (-191)) = some (-191 / 2) :=
    Double.mul_eq _ _ _ (roundTo_neg 53 _ _ (1 / 2 ^ 46) 6 (-6720215068966912) (by norm_num))
  have e7 : Double.mul (some (-191)) (some (-191)) = some 36481 :=
    Double.mul_eq _ _ _ (roundTo_pos 53 _ _ (1 / 2 ^ 37) 15 5013910461612032 (by norm_num))
  have e8 : Double.add (some 0) (some 36481) = some 36481 :=
    Double.add_eq _ _ _ (roundTo_pos 53 _ _ (1 / 2 ^ 37) 15 5013910461612032 (by norm_num))
  have e9 : Double.sqrt (some 36481) = some 191 :=
    Double.sqrt_eq _ _ (by norm_num) (roundTo_sqrt 53 _ _ (1 / 2 ^ 45) 7 6720215068966912 (by norm_num))
  have e10 : Double.div (some (-191 / 2)) (some 191) = some (-1 / 2) :=
    Double.div_eq _ _ _ (by norm_num) (roundTo_neg 53 _ _ (1 / 2 ^ 53) (-1) (-4503599627370496) (by norm_num))
  have e11 : Double.add (some 14) (some 14) = some 28 :=
    Double.add_eq _ _ _ (roundTo_pos 53 _ _ (1 / 2 ^ 48) 4 7881299347898368 (by norm_num))
  have e12 : Double.add (some 28) (some 205) = some 233 :=
    Double.add_eq _ _ _ (roundTo_pos 53 _ _ (1 / 2 ^ 45) 7 8197958696697856 (by norm_num))
  have e13 : Double.mul (some 3) (some 14) = some 42 :=
    Double.mul_eq _ _ _ (roundTo_pos 53 _ _ (1 / 2 ^ 47) 5 5910974510923776 (by norm_num))
  have e14 : Double.div (some 42) (some 233) = some (6494461265220973 / 2 ^ 55) :=
    Double.div_eq _ _ _ (by norm_num) (roundTo_pos 53 _ _ (1 / 2 ^ 55) (-3) 6494461265220973 (by norm_num))
  have e15 : Double.sub (some 1) (some (6494461265220973 / 2 ^ 55)) = some (7383583938435749 / 2 ^ 53) :=
    Double.sub_eq _ _ _ (roundTo_pos 53 _ _ (1 / 2 ^ 53) (-1) 7383583938435749 (by norm_num))
  have e16 : Double.div (some 233) (some 3) = some (5465305797798571 / 2 ^ 46) :=
    Double.div_eq _ _ _ (by norm_num) (roundTo_pos 53 _ _ (1 / 2 ^ 46) 6 5465305797798571 (by norm_num))
  have hgray : (!(14 == 14 && 14 == 205)) = true := by decide
  have hmin : min 14 (min 14 205) = 14 := by decide
  have hblue : 205 > 14 := by decide
  simp only [HSI.convertFromRGB_double,
    checkRGB_ok (show 14 ≤ 255 by decide) (show 14 ≤ 255 by decide)
      (show 205 ≤ 255 by decide),
    hgray, hmin, hblue, if_true, hpow0, hacos, saturation_14_14_205,
    e1, e2, e3, e4, e5, e6, e7, e8, e9, e10, e11, e12, e13, e14, e15, e16]

/-- In double precision the distance of the `HSI` value of RGB (14,14,205) to itself
is NaN, for every math library whose `pow` squares 0 to 0 and the saturation to
`0x1.580d77acbe393p-1` and whose `cos` is 1 at 0: the radicand is `-2^-52`. -/
theorem distance_double_self_14_14_205 (L : Libm) (a : ℝ)
    (hpow0 : L.pow (some 0) (some 2) = some 0)
    (hpowS : L.pow (some saturation_14_14_205) (some 2) = some (6052637477430163 / 2 ^ 53))
    (hcos : L.cos (some 0) = some 1) :
    HSI.distance_double L
        { HSI.declare_double ColorspaceInterfaceDouble.blank with
          r := 14, g := 14, b := 205,
          c1 := Double.sub (Double.mul (some 2) M_PI) (some a),
          c2 := some saturation_14_14_205, c3 := some (5465305797798571 / 2 ^ 46) }
        { HSI.declare_double ColorspaceInterfaceDouble.blank with
          r := 14, g := 14, b := 205,
          c1 := Double.sub (Double.mul (some 2) M_PI) (some a),
          c2 := some saturation_14_14_205, c3 := some (5465305797798571 / 2 ^ 46) }
      = .ok none := by
  simp only [saturation_14_14_205] at hpowS
  have e1 : Double.sub (some (5465305797798571 / 2 ^ 46)) (some (5465305797798571 / 2 ^ 46)) = some 0 :=
    Double.sub_eq _ _ _ (roundTo_zero 53 _ (by norm_num))
  have e2 : Double.add (some 0) (some (6052637477430163 / 2 ^ 53)) = some (6052637477430163 / 2 ^ 53) :=
    Double.add_eq _ _ _ (roundTo_pos 53 _ _ (1 / 2 ^ 53) (-1) 6052637477430163 (by norm_num))
  have e3 : Double.add (some (6052637477430163 / 2 ^ 53)) (some (6052637477430163 / 2 ^ 53)) = some (6052637477430163 / 2 ^ 52) :=
    Double.add_eq _ _ _ (roundTo_pos 53 _ _ (1 / 2 ^ 52) 0 6052637477430163 (by norm_num))
  have e4 : Double.mul (some 2) (some (7383583938435749 / 2 ^ 53)) = some (7383583938435749 / 2 ^ 52) :=
    Double.mul_eq _ _ _ (roundTo_pos 53 _ _ (1 / 2 ^ 52) 0 7383583938435749 (by norm_num))
  have e5 : Double.mul (some (7383583938435749 / 2 ^ 52)) (some (7383583938435749 / 2 ^ 53)) = some (1513159369357541 / 2 ^ 50) :=
    Double.mul_eq _ _ _ (roundTo_pos 53 _ _ (1 / 2 ^ 52) 0 6052637477430164 (by norm_num))
  have e6 : Double.mul (some (1513159369357541 / 2 ^ 50)) (some 1) = some (1513159369357541 / 2 ^ 50) :=
    Double.mul_eq _ _ _ (roundTo_pos 53 _ _ (1 / 2 ^ 52) 0 6052637477430164 (by norm_num))
  have e7 : Double.sub (some (6052637477430163 / 2 ^ 52)) (some (1513159369357541 / 2 ^ 50)) = some (-1 / 2 ^ 52) :=
    Double.sub_eq _ _ _ (roundTo_neg 53 _ _ (1 / 2 ^ 104) (-52) (-4503599627370496) (by norm_num))
  have hname : ("hsi" != "hsi") = false := by decide
  have hhue : Double.sub (Double.mul (some 2) M_PI) (some a)
      = some (roundTo 53 (roundTo 53 (2 * roundTo 53 π) - a)) := rfl
  have hzero : Double.sub (some (roundTo 53 (roundTo 53 (2 * roundTo 53 π) - a)))
      (some (roundTo 53 (roundTo 53 (2 * roundTo 53 π) - a))) = some 0 :=
    Double.sub_eq _ _ _ (roundTo_zero 53 _ (sub_self _))
  have hsqrt : Double.sqrt (some (-1 / 2 ^ 52)) = none := Double.sqrt_neg _ (by norm_num)
  simp only [HSI.distance_double, HSI.toHSI_double, ColorspaceInterfaceDouble.getName,
    HSI.declare_double, hname, Bool.false_eq_true, if_false, saturation_14_14_205,
    hhue, hzero, Double.abs_some_zero, Double.gt_zero_M_PI, hcos, hpow0, hpowS, hsqrt,
    e1, e2, e3, e4, e5, e6, e7]

/-- In double precision the normalised distance of the `HSI` value of RGB
(14,14,205) to itself is the negative number `-0x1.01fef4p-68` (about -3.4e-21), for
every math library as in `distance_double_self_14_14_205` whose `pow` squares 255 to
65025. -/
theorem normalizedDistance_double_self_14_14_205 (L : Libm) (a : ℝ)
    (hpow0 : L.pow (some 0) (some 2) = some 0)
    (hpowS : L.pow (some saturation_14_14_205) (some 2) = some (6052637477430163 / 2 ^ 53))
    (hpow255 : L.pow (some 255) (some 2) = some 65025)
    (hcos : L.cos (some 0) = some 1) :
    HSI.normalizedDistance_double L
        { HSI.declare_double ColorspaceInterfaceDouble.blank with
          r := 14, g := 14, b := 205,
          c1 := Double.sub (Double.mul (some 2) M_PI) (some a),
          c2 := some saturation_14_14_205, c3 := some (5465305797798571 / 2 ^ 46) }
        { HSI.declare_double ColorspaceInterfaceDouble.blank with
          r := 14, g := 14, b := 205,
          c1 := Double.sub (Double.mul (some 2) M_PI) (some a),
          c2 := some saturation_14_14_205, c3 := some (5465305797798571 / 2 ^ 46) }
      = .ok (some (-4227005 / 2 ^ 90)) := by
  simp only [saturation_14_14_205] at hpowS
  have e1 : Double.sub (some (5465305797798571 / 2 ^ 46)) (some (5465305797798571 / 2 ^ 46)) = some 0 :=
    Double.sub_eq _ _ _ (roundTo_zero 53 _ (by norm_num))
  have e2 : Double.add (some (6052637477430163 / 2 ^ 53)) (some (6052637477430163 / 2 ^ 53)) = some (6052637477430163 / 2 ^ 52) :=
    Double.add_eq _ _ _ (roundTo_pos 53 _ _ (1 / 2 ^ 52) 0 6052637477430163 (by norm_num))
  have e3 : Double.mul (some 2) (some (7383583938435749 / 2 ^ 53)) = some (7383583938435749 / 2 ^ 52) :=
    Double.mul_eq _ _ _ (roundTo_pos 53 _ _ (1 / 2 ^ 52) 0 7383583938435749 (by norm_num))
  have e4 : Double.mul (some (7383583938435749 / 2 ^ 52)) (some (7383583938435749 / 2 ^ 53)) = some (1513159369357541 / 2 ^ 50) :=
    Double.mul_eq _ _ _ (roundTo_pos 53 _ _ (1 / 2 ^ 52) 0 6052637477430164 (by norm_num))
  have e5 : Double.mul (some (1513159369357541 / 2 ^ 50)) (some 1) = some (1513159369357541 / 2 ^ 50) :=
    Double.mul_eq _ _ _ (roundTo_pos 53 _ _ (1 / 2 ^ 52) 0 6052637477430164 (by norm_num))
  have e6 : Double.sub (some (6052637477430163 / 2 ^ 52)) (some (1513159369357541 / 2 ^ 50)) = some (-1 / 2 ^ 52) :=
    Double.sub_eq _ _ _ (roundTo_neg 53 _ _ (1 / 2 ^ 104) (-52) (-4503599627370496) (by norm_num))
  have e7 : Float32.ofDouble (some 65025) = some 65025 :=
    Float32.ofDouble_eq _ _ (roundTo_pos 24 _ _ (1 / 2 ^ 8) 15 16646400 (by norm_num))
  have e8 : Float32.ofDouble (some 4) = some 4 :=
    Float32.ofDouble_eq _ _ (roundTo_pos 24 _ _ (1 / 2 ^ 21) 2 8388608 (by norm_num))
  have e9 : Double.div (some 0) (some 65025) = some 0 :=
    Double.div_eq _ _ _ (by norm_num) (roundTo_zero 53 _ (by norm_num))
  have e10 : Double.div (some (-1 / 2 ^ 52)) (some 4) = some (-1 / 2 ^ 54) :=
    Double.div_eq _ _ _ (by norm_num) (roundTo_neg 53 _ _ (1 / 2 ^ 106) (-54) (-4503599627370496) (by norm_num))
  have e11 : Float32.add (some 65025) (some 4) = some 65029 :=
    Float32.add_float_eq _ _ _ (roundTo_pos 24 _ _ (1 / 2 ^ 8) 15 16647424 (by norm_num))
  have e12 : Float32.div (some 65025) (some 65029) = some (2097023 / 2 ^ 21) :=
    Float32.div_float_eq _ _ _ (by norm_num) (roundTo_pos 24 _ _ (1 / 2 ^ 24) (-1) 16776184 (by norm_num))
  have e13 : Float32.div (some 4) (some 65029) = some (4227005 / 2 ^ 36) :=
    Float32.div_float_eq _ _ _ (by norm_num) (roundTo_pos 24 _ _ (1 / 2 ^ 37) (-14) 8454010 (by norm_num))
  have e14 : Double.mul (some 0) (some (2097023 / 2 ^ 21)) = some 0 :=
    Double.mul_eq _ _ _ (roundTo_zero 53 _ (by norm_num))
  have e15 : Double.mul (some (-1 / 2 ^ 54)) (some (4227005 / 2 ^ 36)) = some (-4227005 / 2 ^ 90) :=
    Double.mul_eq _ _ _ (roundTo_neg 53 _ _ (1 / 2 ^ 120) (-68) (-4538712058757120) (by norm_num))
  have e16 : Double.add (some 0) (some (-4227005 / 2 ^ 90)) = some (-4227005 / 2 ^ 90) :=
    Double.add_eq _ _ _ (roundTo_neg 53 _ _ (1 / 2 ^ 120) (-68) (-4538712058757120) (by norm_num))
  have hname : ("hsi" != "hsi") = false := by decide
  have hhue : Double.sub (Double.mul (some 2) M_PI) (some a)
      = some (roundTo 53 (roundTo 53 (2 * roundTo 53 π) - a)) := rfl
  have hzero : Double.sub (some (roundTo 53 (roundTo 53 (2 * roundTo 53 π) - a)))
      (some (roundTo 53 (roundTo 53 (2 * roundTo 53 π) - a))) = some 0 :=
    Double.sub_eq _ _ _ (roundTo_zero 53 _ (sub_self _))
  simp only [HSI.normalizedDistance_double, HSI.toHSI_double,
    ColorspaceInterfaceDouble.getName, HSI.declare_double, hname, Bool.false_eq_true,
    if_false, saturation_14_14_205, hhue, hzero, Double.abs_some_zero, Double.gt_zero_M_PI,
    hcos, hpow0, hpowS, hpow255, Double.ofFloat32,
    e1, e2, e3, e4, e5, e6, e7, e8, e9, e10, e11, e12, e13, e14, e15, e16]

/-! ## The math library observed -/

theorem observed_pow_zero : Libm.observed.pow (some 0) (some 2) = some 0 := by
  have hne : ¬ ((some (0 : ℝ) : Double) = some saturation_14_14_205 ∧
      (some (2 : ℝ) : Double) = some 2) := by
    rintro ⟨h, -⟩
    have h2 := Option.some.inj h
    norm_num [saturation_14_14_205] at h2
  show (if (some (0 : ℝ) : Double) = some saturation_14_14_205 ∧
      (some (2 : ℝ) : Double) = some 2 then some (6052637477430163 / 2 ^ 53)
    else Libm.correctlyRounded.pow (some 0) (some 2)) = some 0
  rw [if_neg hne]
  exact pow_correctlyRounded_eq _ _ (roundTo_zero 53 _ (by norm_num))

theorem observed_pow_255 : Libm.observed.pow (some 255) (some 2) = some 65025 := by
  have hne : ¬ ((some (255 : ℝ) : Double) = some saturation_14_14_205 ∧
      (some (2 : ℝ) : Double) = some 2) := by
    rintro ⟨h, -⟩
    have h2 := Option.some.inj h
    norm_num [saturation_14_14_205] at h2
  show (if (some (255 : ℝ) : Double) = some saturation_14_14_205 ∧
      (some (2 : ℝ) : Double) = some 2 then some (6052637477430163 / 2 ^ 53)
    else Libm.correctlyRounded.pow (some 255) (some 2)) = some 65025
  rw [if_neg hne]
  exact pow_correctlyRounded_eq _ _
    (roundTo_pos 53 _ _ (1 / 2 ^ 37) 15 8936967949516800 (by norm_num))

theorem observed_pow_saturation :
    Libm.observed.pow (some saturation_14_14_205) (some 2)
      = some (6052637477430163 / 2 ^ 53) := by
  simp only [Libm.observed, and_self, if_true]

theorem observed_acos :
    Libm.observed.acos (some (-1 / 2)) = some (roundTo 53 (Real.arccos (-1 / 2))) := by
  have h : (-1 : ℝ) ≤ -1 / 2 ∧ (-1 / 2 : ℝ) ≤ 1 := by norm_num
  simp only [Libm.observed, Libm.correctlyRounded, if_pos h]

theorem observed_cos_zero : Libm.observed.cos (some 0) = some 1 :=
  cos_correctlyRounded_zero

/-! ## What the rounding does to the claims about the distance -/

/-- C5 (the code departs from it): in double precision, for every math library
whose `pow` squares 0 to 0 and the saturation of RGB (14,14,205) to
`0x1.580d77acbe393p-1` (one unit in the last place below the product `c2*c2`, the
value the GNU C library returns), whose `acos` is finite at -1/2 and whose `cos` is 1
at 0, the `HSI` value x of RGB (14,14,205) is constructed and `distance(x, x)`
returns NaN, not 0. -/
theorem C5_distance_self_nan_in_doubles (L : Libm) (a : ℝ)
    (hpow0 : L.pow (some 0) (some 2) = some 0)
    (hpowS : L.pow (some saturation_14_14_205) (some 2) = some (6052637477430163 / 2 ^ 53))
    (hacos : L.acos (some (-1 / 2)) = some a)
    (hcos : L.cos (some 0) = some 1) :
    ∃ x, HSI.ctor_double L 14 14 205 = .ok x ∧ HSI.distance_double L x x = .ok none :=
  ⟨_, convertFromRGB_double_14_14_205 L _ a hpow0 hacos,
    distance_double_self_14_14_205 L a hpow0 hpowS hcos⟩

/-- Witness of C5: the math library `Libm.observed`. -/
theorem C5_distance_self_nan_in_doubles_witness :
    ∃ x, HSI.ctor_double Libm.observed 14 14 205 = .ok x ∧
      HSI.distance_double Libm.observed x x = .ok none :=
  C5_distance_self_nan_in_doubles Libm.observed _ observed_pow_zero
    observed_pow_saturation observed_acos observed_cos_zero

/-- C7 (the code departs from it): in double precision, for every math library as in
C5 whose `pow` squares 255 to 65025, `normalizedDistance(x, x)` for the `HSI` value x
of RGB (14,14,205) returns the negative number `-0x1.01fef4p-68`, outside [0,1]. -/
theorem C7_normalizedDistance_negative_in_doubles (L : Libm) (a : ℝ)
    (hpow0 : L.pow (some 0) (some 2) = some 0)
    (hpowS : L.pow (some saturation_14_14_205) (some 2) = some (6052637477430163 / 2 ^ 53))
    (hpow255 : L.pow (some 255) (some 2) = some 65025)
    (hacos : L.acos (some (-1 / 2)) = some a)
    (hcos : L.cos (some 0) = some 1) :
    ∃ x d, HSI.ctor_double L 14 14 205 = .ok x ∧
      HSI.normalizedDistance_double L x x = .ok (some d) ∧ d < 0 ∧
      d = -4227005 / 2 ^ 90 :=
  ⟨_, _, convertFromRGB_double_14_14_205 L _ a hpow0 hacos,
    normalizedDistance_double_self_14_14_205 L a hpow0 hpowS hpow255 hcos,
    by norm_num, rfl⟩

/-- Witness of C7: the math library `Libm.observed`. -/
theorem C7_normalizedDistance_negative_in_doubles_witness :
    ∃ x d, HSI.ctor_double Libm.observed 14 14 205 = .ok x ∧
      HSI.normalizedDistance_double Libm.observed x x = .ok (some d) ∧ d < 0 ∧
      d = -4227005 / 2 ^ 90 :=
  C7_normalizedDistance_negative_in_doubles Libm.observed _ observed_pow_zero
    observed_pow_saturation observed_pow_255 observed_acos observed_cos_zero

/-- C11 (the code departs from it): in double precision, for every math library as
in C5, the value that `distance(x, x)` returns for the `HSI` value x of RGB
(14,14,205) is not a number d with 0 ≤ d. -/
theorem C11_distance_not_nonnegative_in_doubles (L : Libm) (a : ℝ)
    (hpow0 : L.pow (some 0) (some 2) = some 0)
    (hpowS : L.pow (some saturation_14_14_205) (some 2) = some (6052637477430163 / 2 ^ 53))
    (hacos : L.acos (some (-1 / 2)) = some a)
    (hcos : L.cos (some 0) = some 1) :
    ∃ x v, HSI.ctor_double L 14 14 205 = .ok x ∧ HSI.distance_double L x x = .ok v ∧
      ¬ ∃ d : ℝ, v = some d ∧ 0 ≤ d :=
  ⟨_, none, convertFromRGB_double_14_14_205 L _ a hpow0 hacos,
    distance_double_self_14_14_205 L a hpow0 hpowS hcos,
    fun ⟨_, h, _⟩ => Option.noConfusion h⟩

/-- Witness of C11: the math library `Libm.observed`. -/
theorem C11_distance_not_nonnegative_in_doubles_witness :
    ∃ x v, HSI.ctor_double Libm.observed 14 14 205 = .ok x ∧
      HSI.distance_double Libm.observed x x = .ok v ∧ ¬ ∃ d : ℝ, v = some d ∧ 0 ≤ d :=
  C11_distance_not_nonnegative_in_doubles Libm.observed _ observed_pow_zero
    observed_pow_saturation observed_acos observed_cos_zero

/-- C20 (the code departs from it): in double precision, for every math library as
in C5, two `HSI` values x and y constructed from RGB (14,14,205) have the same hue,
saturation and intensity, and `distance(x, y)` does not return 0. -/
theorem C20_same_channels_distance_not_zero_in_doubles (L : Libm) (a : ℝ)
    (hpow0 : L.pow (some 0) (some 2) = some 0)
    (hpowS : L.pow (some saturation_14_14_205) (some 2) = some (6052637477430163 / 2 ^ 53))
    (hacos : L.acos (some (-1 / 2)) = some a)
    (hcos : L.cos (some 0) = some 1) :
    ∃ x y, HSI.ctor_double L 14 14 205 = .ok x ∧ HSI.ctor_double L 14 14 205 = .ok y ∧
      x.c1 = y.c1 ∧ x.c2 = y.c2 ∧ x.c3 = y.c3 ∧
      HSI.distance_double L x y ≠ .ok (some 0) := by
  refine ⟨_, _, convertFromRGB_double_14_14_205 L _ a hpow0 hacos,
    convertFromRGB_double_14_14_205 L _ a hpow0 hacos, rfl, rfl, rfl, ?_⟩
  rw [distance_double_self_14_14_205 L a hpow0 hpowS hcos]
  intro h
  cases h

/-- Witness of C20: the math library `Libm.observed`. -/
theorem C20_same_channels_distance_not_zero_in_doubles_witness :
    ∃ x y, HSI.ctor_double Libm.observed 14 14 205 = .ok x ∧
      HSI.ctor_double Libm.observed 14 14 205 = .ok y ∧
      x.c1 = y.c1 ∧ x.c2 = y.c2 ∧ x.c3 = y.c3 ∧
      HSI.distance_double Libm.observed x y ≠ .ok (some 0) :=
  C20_same_channels_distance_not_zero_in_doubles Libm.observed _ observed_pow_zero
    observed_pow_saturation observed_acos observed_cos_zero

end cs
